import Mathlib

/-!
# Verification of the econnect-python session/locking/query layer

A shallow embedding of `elmo/api/client.py` and `elmo/api/decorators.py`
(package `src/elmo` of the repository).  Network interaction is made
explicit: every operation receives the HTTP response(s) the backend would
produce and returns an `Outcome` carrying the Python-level result (a value
or a raised exception), the mutated client state, and the list of HTTP
requests that were issued.  Python `dict`s are association lists, JSON
values are the inductive `JVal`, and Python's dynamic comparison rules
(used by `max` on the entity ids) are modelled by `pyCompare`.
-/

namespace Elmo

/-- Scalar JSON values exchanged with the backend (the payload fields and
entity attributes the client reads are scalars). -/
inductive JVal where
  | jnum (n : Int)
  | jstr (s : String)
  | jbool (b : Bool)
  | jnull
  deriving Repr, DecidableEq

/-- A value of a form-encoded request payload: a scalar or a list of
integers (`ElementsIndexes` may carry a sector list). -/
inductive PVal where
  | v (x : JVal)
  | vlist (xs : List Int)
  deriving Repr, DecidableEq

/-- A Python dictionary with string keys, as an association list (later
assignments are performed with `setA`, which overwrites in place). -/
abbrev Dict := List (String × JVal)

/-- A request payload dictionary. -/
abbrev Payload := List (String × PVal)

/-- The exceptions the client can raise.  `httpError` is
`requests.exceptions.HTTPError` (carrying the response status code);
`keyError`/`indexError` are uncaught Python `KeyError`/`IndexError`. -/
inductive ApiError where
  | httpError (status : Nat)
  | missingToken
  | invalidToken
  | credentialError
  | lockError
  | codeError
  | lockNotAcquired
  | commandError
  | queryNotValid
  | parseError
  | deviceDisconnected
  | keyError (k : String)
  | indexError
  deriving Repr, DecidableEq

/-- Mapping `Class -> Index -> Description` built by `_get_descriptions`. -/
abbrev Descriptions := List (Int × List (Int × String))

/-- The mutable state of an `ElmoClient` instance:
`_router._base_url`, `_domain`, `_session_id`, `_panel`,
the `threading.Lock` (`locked = true` iff `self._lock.locked()`),
and the `lru_cache` memo of `_get_descriptions`. -/
structure ClientState where
  base_url : String
  domain : Option String
  session_id : Option String
  panel : Option Dict
  locked : Bool
  descriptions : Option Descriptions
  deriving Repr, DecidableEq

/-- One HTTP request issued by the client: target URL and form payload. -/
structure Request where
  url : String
  payload : Payload
  deriving Repr, DecidableEq

instance {ε α : Type} [DecidableEq ε] [DecidableEq α] : DecidableEq (Except ε α) :=
  fun x y =>
    match x, y with
    | .ok a, .ok b =>
      if h : a = b then .isTrue (by rw [h])
      else .isFalse (by intro hh; cases hh; exact h rfl)
    | .error a, .error b =>
      if h : a = b then .isTrue (by rw [h])
      else .isFalse (by intro hh; cases hh; exact h rfl)
    | .ok _, .error _ => .isFalse (fun hh => Except.noConfusion hh)
    | .error _, .ok _ => .isFalse (fun hh => Except.noConfusion hh)

/-- Result of running one client operation: the Python outcome (normal
return or raised exception), the state of the instance afterwards, and the
requests that reached the network, in order. -/
structure Outcome (α : Type) where
  result : Except ApiError α
  state : ClientState
  log : List Request
  deriving Repr, DecidableEq

/-- `Router` endpoints (`elmo/api/router.py`). -/
def Router.auth (base : String) : String := base ++ "/api/login"

def Router.descriptions (base : String) : String := base ++ "/api/strings"

def Router.update (base : String) : String := base ++ "/api/updates"

def Router.status (base : String) : String := base ++ "/api/statusadv"

def Router.lock (base : String) : String := base ++ "/api/panel/syncLogin"

def Router.unlock (base : String) : String := base ++ "/api/panel/syncLogout"

def Router.send_command (base : String) : String := base ++ "/api/panel/syncSendCommand"

def Router.sectors (base : String) : String := base ++ "/api/areas"

def Router.inputs (base : String) : String := base ++ "/api/inputs"

def Router.outputs (base : String) : String := base ++ "/api/outputs"

/-- `response.raise_for_status()` raises unless the status is 2xx. -/
def is2xx (status : Nat) : Bool := 200 ≤ status && status < 300

/-- The `sessionId` payload value (`self._session_id`, possibly `None`). -/
def sessionVal (s : ClientState) : JVal :=
  match s.session_id with
  | some t => .jstr t
  | none => .jnull

/-- `require_session` (`elmo/api/decorators.py`): bail out with
`MissingToken` when no session id is stored; translate an `HTTPError`
with status 401 raised by the wrapped call into `InvalidToken`. -/
def require_session {α : Type} (f : ClientState → Outcome α) (s : ClientState) : Outcome α :=
  match s.session_id with
  | none => ⟨.error .missingToken, s, []⟩
  | some _ =>
    let o := f s
    match o.result with
    | .error (.httpError st) =>
      if st = 401 then { o with result := .error .invalidToken } else o
    | _ => o

/-- `require_lock` (`elmo/api/decorators.py`): bail out with
`LockNotAcquired` when the local lock is not held; on an `HTTPError` with
status 403 from the wrapped call, release the local lock and raise
`LockNotAcquired`. -/
def require_lock {α : Type} (f : ClientState → Outcome α) (s : ClientState) : Outcome α :=
  if s.locked then
    let o := f s
    match o.result with
    | .error (.httpError st) =>
      if st = 403 then
        { o with
          result := .error .lockNotAcquired
          state := { o.state with locked := false } }
      else o
    | _ => o
  else ⟨.error .lockNotAcquired, s, []⟩

/-- One element of the JSON array returned by command endpoints; `none`
means the `"Successful"` key is absent. -/
structure CmdItem where
  successful : Option Bool
  deriving Repr, DecidableEq

/-- An HTTP response to a command/lock request. -/
structure CmdResponse where
  status : Nat
  body : List CmdItem
  deriving Repr, DecidableEq

/-- `body[0]["Successful"]`: `IndexError` on an empty body, `KeyError`
when the key is missing. -/
def firstSuccessful (body : List CmdItem) : Except ApiError Bool :=
  match body with
  | [] => .error .indexError
  | item :: _ =>
    match item.successful with
    | none => .error (.keyError "Successful")
    | some b => .ok b

/-- Body of `ElmoClient.unlock` (after its decorators): POST to the
unlock endpoint, raise on non-2xx, release the local lock only on
success. -/
def unlock_raw (ustatus : Nat) (s : ClientState) : Outcome Bool :=
  let req : Request := ⟨Router.unlock s.base_url, [("sessionId", .v (sessionVal s))]⟩
  if is2xx ustatus then
    ⟨.ok true, { s with locked := false }, [req]⟩
  else
    ⟨.error (.httpError ustatus), s, [req]⟩

/-- `ElmoClient.unlock = require_session (require_lock unlock_raw)`. -/
def unlock (ustatus : Nat) (s : ClientState) : Outcome Bool :=
  require_session (require_lock (unlock_raw ustatus)) s

/-- The part of the `ElmoClient.lock` context manager that runs before the
`yield`: the session check of `require_session` (the decorator wraps the
generator function, so its `HTTPError` translation never observes
exceptions raised while the generator runs), the POST to the lock
endpoint, the status handling (403 → `LockError`, 401 → `InvalidToken`),
the `body[0]["Successful"]` check (false → `CodeError`) and the local
`Lock.acquire()`. -/
def lock_attempt (code : JVal) (user_id : Int) (resp : CmdResponse) (s : ClientState) :
    Outcome Unit :=
  match s.session_id with
  | none => ⟨.error .missingToken, s, []⟩
  | some _ =>
    let req : Request :=
      ⟨Router.lock s.base_url,
        [("userId", .v (.jnum user_id)), ("password", .v code),
         ("sessionId", .v (sessionVal s))]⟩
    if is2xx resp.status then
      match firstSuccessful resp.body with
      | .error e => ⟨.error e, s, [req]⟩
      | .ok false => ⟨.error .codeError, s, [req]⟩
      | .ok true => ⟨.ok (), { s with locked := true }, [req]⟩
    else
      if resp.status = 403 then ⟨.error .lockError, s, [req]⟩
      else if resp.status = 401 then ⟨.error .invalidToken, s, [req]⟩
      else ⟨.error (.httpError resp.status), s, [req]⟩

/-- A full `with client.lock(code): body` block: on a successful
acquisition run `body`, then — on every exit path, normal or exceptional
(`try: yield ... finally: self.unlock()`) — call `unlock`.  An exception
raised by `unlock` replaces the body's outcome, as the `finally` clause
does in Python. -/
def lock_with {α : Type} (code : JVal) (user_id : Int) (resp : CmdResponse)
    (body : ClientState → Outcome α) (ustatus : Nat) (s : ClientState) : Outcome α :=
  let att := lock_attempt code user_id resp s
  match att.result with
  | .error e => ⟨.error e, att.state, att.log⟩
  | .ok _ =>
    let ob := body att.state
    let ou := unlock ustatus ob.state
    let res : Except ApiError α :=
      match ou.result with
      | .error e => .error e
      | .ok _ => ob.result
    ⟨res, ou.state, att.log ++ ob.log ++ ou.log⟩

/-- Body of `ElmoClient.arm` (`CommandType` 1): a single request, to all
sectors (`ElementsClass` 1) when the list is empty, or to the given
sector set (`ElementsClass` 9). -/
def arm_raw (sectors : List Int) (resp : CmdResponse) (s : ClientState) : Outcome Bool :=
  let payload : Payload :=
    if sectors.isEmpty then
      [("CommandType", .v (.jnum 1)), ("ElementsClass", .v (.jnum 1)),
       ("ElementsIndexes", .v (.jnum 1)), ("sessionId", .v (sessionVal s))]
    else
      [("CommandType", .v (.jnum 1)), ("ElementsClass", .v (.jnum 9)),
       ("ElementsIndexes", .vlist sectors), ("sessionId", .v (sessionVal s))]
  let req : Request := ⟨Router.send_command s.base_url, payload⟩
  if is2xx resp.status then
    match firstSuccessful resp.body with
    | .error e => ⟨.error e, s, [req]⟩
    | .ok false => ⟨.error .commandError, s, [req]⟩
    | .ok true => ⟨.ok true, s, [req]⟩
  else ⟨.error (.httpError resp.status), s, [req]⟩

/-- `ElmoClient.arm` with its decorators. -/
def arm (sectors : List Int) (resp : CmdResponse) : ClientState → Outcome Bool :=
  require_session (require_lock (arm_raw sectors resp))

/-- Body of `ElmoClient.disarm` (`CommandType` 2). -/
def disarm_raw (sectors : List Int) (resp : CmdResponse) (s : ClientState) : Outcome Bool :=
  let payload : Payload :=
    if sectors.isEmpty then
      [("CommandType", .v (.jnum 2)), ("ElementsClass", .v (.jnum 1)),
       ("ElementsIndexes", .v (.jnum 1)), ("sessionId", .v (sessionVal s))]
    else
      [("CommandType", .v (.jnum 2)), ("ElementsClass", .v (.jnum 9)),
       ("ElementsIndexes", .vlist sectors), ("sessionId", .v (sessionVal s))]
  let req : Request := ⟨Router.send_command s.base_url, payload⟩
  if is2xx resp.status then
    match firstSuccessful resp.body with
    | .error e => ⟨.error e, s, [req]⟩
    | .ok false => ⟨.error .commandError, s, [req]⟩
    | .ok true => ⟨.ok true, s, [req]⟩
  else ⟨.error (.httpError resp.status), s, [req]⟩

/-- `ElmoClient.disarm` with its decorators. -/
def disarm (sectors : List Int) (resp : CmdResponse) : ClientState → Outcome Bool :=
  require_session (require_lock (disarm_raw sectors resp))

/-- The request payload `include`/`exclude` build for one input id. -/
def inputPayload (cmdType : Int) (element : Int) (s : ClientState) : Payload :=
  [("CommandType", .v (.jnum cmdType)), ("ElementsClass", .v (.jnum 10)),
   ("ElementsIndexes", .v (.jnum element)), ("sessionId", .v (sessionVal s))]

/-- The per-payload loop shared by `include` and `exclude`: one POST per
input id, abort on the first HTTP failure or ill-shaped body, otherwise
collect the ids whose response carries `Successful == False`.  `i` is the
position of the next response.  Returns the requests actually issued and
either the raised error or the collected failing ids. -/
def sendEach (cmdType : Int) (resps : Nat → CmdResponse) (s : ClientState) :
    Nat → List Int → List Request × Except ApiError (List Int)
  | _, [] => ([], .ok [])
  | i, e :: rest =>
    let req : Request := ⟨Router.send_command s.base_url, inputPayload cmdType e s⟩
    let resp := resps i
    if is2xx resp.status then
      match firstSuccessful resp.body with
      | .error er => ([req], .error er)
      | .ok b =>
        let r := sendEach cmdType resps s (i + 1) rest
        match r.2 with
        | .error er => (req :: r.1, .error er)
        | .ok errs => (req :: r.1, .ok (if b then errs else e :: errs))
    else ([req], .error (.httpError resp.status))

/-- Body of `ElmoClient.exclude` (`CommandType` 2): run the loop, then
raise `CommandError` when any id failed. -/
def exclude_raw (inputs : List Int) (resps : Nat → CmdResponse) (s : ClientState) :
    Outcome Bool :=
  let r := sendEach 2 resps s 0 inputs
  match r.2 with
  | .error e => ⟨.error e, s, r.1⟩
  | .ok [] => ⟨.ok true, s, r.1⟩
  | .ok (_ :: _) => ⟨.error .commandError, s, r.1⟩

/-- `ElmoClient.exclude` with its decorators. -/
def exclude (inputs : List Int) (resps : Nat → CmdResponse) : ClientState → Outcome Bool :=
  require_session (require_lock (exclude_raw inputs resps))

/-- Body of `ElmoClient.include` (`CommandType` 1). -/
def include_raw (inputs : List Int) (resps : Nat → CmdResponse) (s : ClientState) :
    Outcome Bool :=
  let r := sendEach 1 resps s 0 inputs
  match r.2 with
  | .error e => ⟨.error e, s, r.1⟩
  | .ok [] => ⟨.ok true, s, r.1⟩
  | .ok (_ :: _) => ⟨.error .commandError, s, r.1⟩

/-- `ElmoClient.include` with its decorators (`include` is a Lean keyword,
hence the prime). -/
def include' (inputs : List Int) (resps : Nat → CmdResponse) : ClientState → Outcome Bool :=
  require_session (require_lock (include_raw inputs resps))

/-- The last-known identifiers the caller hands to `poll`
(`ids[q.SECTORS]`, `ids[q.INPUTS]`, `ids[q.OUTPUTS]`, `ids[q.ALERTS]`). -/
structure Ids where
  sectors : Int
  inputs : Int
  outputs : Int
  alerts : Int
  deriving Repr, DecidableEq

/-- The JSON body of an `/api/updates` response.  `hasChanges` is the raw
`"HasChanges"` flag the server also sends; the client deliberately never
reads it.  `none` marks a missing key. -/
structure PollResponse where
  status : Nat
  hasChanges : Option Bool
  areas : Option Bool
  inputs : Option Bool
  outputs : Option Bool
  statusAdv : Option Bool
  deriving Repr, DecidableEq

/-- The dictionary `poll` returns. -/
structure PollResult where
  has_changes : Bool
  areas : Bool
  inputs : Bool
  outputs : Bool
  statusadv : Bool
  deriving Repr, DecidableEq

/-- Body of `ElmoClient.poll`: POST the last ids, raise on non-2xx, then
read the four per-category flags (`has_changes` is their logical OR); a
missing key raises `ParseError`. -/
def poll_raw (ids : Ids) (resp : PollResponse) (s : ClientState) : Outcome PollResult :=
  let req : Request :=
    ⟨Router.update s.base_url,
      [("sessionId", .v (sessionVal s)), ("Areas", .v (.jnum ids.sectors)),
       ("Inputs", .v (.jnum ids.inputs)), ("Outputs", .v (.jnum ids.outputs)),
       ("StatusAdv", .v (.jnum ids.alerts)), ("CanElevate", .v (.jstr "1")),
       ("ConnectionStatus", .v (.jstr "1"))]⟩
  if is2xx resp.status then
    match resp.areas, resp.inputs, resp.outputs, resp.statusAdv with
    | some a, some i, some o, some st =>
      ⟨.ok ⟨a || i || o || st, a, i, o, st⟩, s, [req]⟩
    | _, _, _, _ => ⟨.error .parseError, s, [req]⟩
  else ⟨.error (.httpError resp.status), s, [req]⟩

/-- `ElmoClient.poll` with its decorator. -/
def poll (ids : Ids) (resp : PollResponse) : ClientState → Outcome PollResult :=
  require_session (poll_raw ids resp)

/-- Python `str.isupper()` (ASCII): at least one cased character and no
lowercase one. -/
def pyIsUpper (s : String) : Bool :=
  s.toList.any (fun c => c.isAlpha) && s.toList.all (fun c => !c.isLower)

/-- One `re.sub("(c1)(c2)", "\1_\2", _)` pass: insert an underscore
between any adjacent pair matching the two character classes.  The passes
used below have disjoint classes, so the regex's non-overlapping scan
coincides with this pairwise insertion. -/
def insertBetween (p1 p2 : Char → Bool) : List Char → List Char
  | [] => []
  | [c] => [c]
  | c1 :: c2 :: rest =>
    if p1 c1 && p2 c2 then c1 :: '_' :: insertBetween p1 p2 (c2 :: rest)
    else c1 :: insertBetween p1 p2 (c2 :: rest)

/-- `_camel_to_snake_case` (`elmo/utils.py`): all-uppercase strings are
lowercased wholesale; otherwise underscores are inserted at
lower/digit→upper, lower→digit and digit→lower boundaries, non-word
characters become underscores, and the result is lowercased. -/
def _camel_to_snake_case (s : String) : String :=
  if pyIsUpper s then s.toLower
  else
    let l1 := insertBetween (fun c => c.isLower || c.isDigit) Char.isUpper s.toList
    let l2 := insertBetween Char.isLower Char.isDigit l1
    let l3 := insertBetween Char.isDigit Char.isLower l2
    let l4 := l3.map (fun c => if c.isAlphanum || c = '_' then c else '_')
    String.mk (l4.map Char.toLower)

/-- The JSON body of an `/api/login` response.  `none` marks a missing
key (`data["SessionId"]`, `data["Redirect"]` and `data["RedirectTo"]` are
plain subscripts; `data.get("Panel", {})` defaults to the empty dict). -/
structure AuthResponse where
  status : Nat
  sessionId : Option String
  redirect : Option Bool
  redirectTo : Option String
  panel : Dict
  deriving Repr, DecidableEq

/-- `ElmoClient.auth` for `base_url ≠ ELMO_E_CONNECT` (the standard API
login; the e-Connect variant differs only in performing a web-form login
first and scraping the token from its HTML).  `r1` answers the first
login request, `r2` the re-issued login after a redirect (unused when the
first response carries `Redirect: false`).  Note that only the first
request sits inside the `try` that turns a 403 into `CredentialError`;
the redirect request's `raise_for_status` is outside it. -/
def auth (username password : String) (r1 r2 : AuthResponse) (s : ClientState) :
    Outcome String :=
  let payload : Payload :=
    match s.domain with
    | some d =>
      [("username", .v (.jstr username)), ("password", .v (.jstr password)),
       ("domain", .v (.jstr d))]
    | none => [("username", .v (.jstr username)), ("password", .v (.jstr password))]
  let req1 : Request := ⟨Router.auth s.base_url, payload⟩
  if is2xx r1.status then
    let s1 := { s with
      panel := some (r1.panel.map (fun kv => (_camel_to_snake_case kv.1, kv.2))) }
    match r1.sessionId with
    | none => ⟨.error (.keyError "SessionId"), s1, [req1]⟩
    | some t1 =>
      let s2 := { s1 with session_id := some t1 }
      match r1.redirect with
      | none => ⟨.error (.keyError "Redirect"), s2, [req1]⟩
      | some false => ⟨.ok t1, s2, [req1]⟩
      | some true =>
        match r1.redirectTo with
        | none => ⟨.error (.keyError "RedirectTo"), s2, [req1]⟩
        | some target =>
          let s3 := { s2 with base_url := target }
          let req2 : Request := ⟨Router.auth target, payload⟩
          if is2xx r2.status then
            match r2.sessionId with
            | none => ⟨.error (.keyError "SessionId"), s3, [req1, req2]⟩
            | some t2 => ⟨.ok t2, { s3 with session_id := some t2 }, [req1, req2]⟩
          else ⟨.error (.httpError r2.status), s3, [req1, req2]⟩
  else
    if r1.status = 403 then ⟨.error .credentialError, s, [req1]⟩
    else ⟨.error (.httpError r1.status), s, [req1]⟩

/-- The categories of the `elmo.query` module. -/
inductive Query where
  | sectors
  | inputs
  | outputs
  | alerts
  | panel
  deriving Repr, DecidableEq

/-- The numeric constants the `elmo.query` module assigns to each
category; they double as the `Class` keys of the descriptions mapping.
Modelled from the spec: the module itself is not under `src/`; the codes
for sectors/inputs/outputs (9/10/12) are pinned down by the
`ElementsClass` values of the command payloads and by the description
tables the test suite installs, the remaining two only need to be
distinct. -/
def queryClass : Query → Int
  | .sectors => 9
  | .inputs => 10
  | .outputs => 12
  | .alerts => 11
  | .panel => 13

/-- Python dictionary assignment `d[k] = v` on an association list:
overwrite in place or append. -/
def setA {κ β : Type} [DecidableEq κ] (k : κ) (v : β) : List (κ × β) → List (κ × β)
  | [] => [(k, v)]
  | (k', v') :: rest => if k = k' then (k, v) :: rest else (k', v') :: setA k v rest

/-- One element of the `/api/strings` response; `none` marks a missing
key. -/
structure DescItem where
  cls : Option Int
  index : Option Int
  description : Option String
  deriving Repr, DecidableEq

/-- The `/api/strings` response. -/
structure DescResponse where
  status : Nat
  items : List DescItem
  deriving Repr, DecidableEq

/-- The grouping loop of `_get_descriptions`:
`descriptions[item["Class"]][item["Index"]] = item["Description"]`.
Missing keys raise uncaught `KeyError`s, in the evaluation order of the
Python statements (Class, then the right-hand side Description, then the
target index). -/
def descLoop : Descriptions → List DescItem → Except ApiError Descriptions
  | acc, [] => .ok acc
  | acc, item :: rest =>
    match item.cls with
    | none => .error (.keyError "Class")
    | some c =>
      let classes := (List.lookup c acc).getD []
      match item.description with
      | none => .error (.keyError "Description")
      | some d =>
        match item.index with
        | none => .error (.keyError "Index")
        | some i => descLoop (setA c (setA i d classes) acc) rest

/-- `ElmoClient._get_descriptions`: the `lru_cache(maxsize=1)` memo short
circuits everything (no session check, no request); a miss checks the
session (`require_session` sits under the cache decorator), POSTs to
`/api/strings`, raises on non-2xx (401 becoming `InvalidToken`), groups
the items and stores the result in the cache. -/
def get_descriptions (resp : DescResponse) (s : ClientState) : Outcome Descriptions :=
  match s.descriptions with
  | some d => ⟨.ok d, s, []⟩
  | none =>
    match s.session_id with
    | none => ⟨.error .missingToken, s, []⟩
    | some _ =>
      let req : Request := ⟨Router.descriptions s.base_url, [("sessionId", .v (sessionVal s))]⟩
      if is2xx resp.status then
        match descLoop [] resp.items with
        | .error e => ⟨.error e, s, [req]⟩
        | .ok d => ⟨.ok d, { s with descriptions := some d }, [req]⟩
      else
        if resp.status = 401 then ⟨.error .invalidToken, s, [req]⟩
        else ⟨.error (.httpError resp.status), s, [req]⟩

/-- Python 3 rich comparison on the modelled JSON scalars: numbers and
booleans compare as numbers, strings compare lexicographically, and any
other combination (including `None`) raises `TypeError` (`none` here). -/
def pyCompare : JVal → JVal → Option Ordering
  | .jnum a, .jnum b => some (compare a b)
  | .jnum a, .jbool b => some (compare a (if b then 1 else 0))
  | .jbool a, .jnum b => some (compare (if a then 1 else 0) b)
  | .jbool a, .jbool b => some (compare (if a then (1 : Int) else 0) (if b then 1 else 0))
  | .jstr a, .jstr b => some (compare a b)
  | _, _ => none

/-- How the running `max` can fail: a comparison `TypeError`, the
`ValueError` of an empty sequence, or a `KeyError` from the generator
expression `entry["Id"]`. -/
inductive MaxErr where
  | typeErr
  | valueErr
  | keyErr
  deriving Repr, DecidableEq

/-- The running phase of Python `max` over the lazily-extracted ids:
`cur` is the current maximum, a `none` id is a missing `"Id"` key. -/
def pyMaxRun (cur : JVal) : List (Option JVal) → Except MaxErr JVal
  | [] => .ok cur
  | none :: _ => .error .keyErr
  | some v :: rest =>
    match pyCompare v cur with
    | none => .error .typeErr
    | some o => pyMaxRun (if o = .gt then v else cur) rest

/-- Python `max(entry["Id"] for entry in entries)`. -/
def pyMaxIds : List (Option JVal) → Except MaxErr JVal
  | [] => .error .valueErr
  | none :: _ => .error .keyErr
  | some v :: rest => pyMaxRun v rest

/-- One element of a sectors/inputs/outputs response body; `none` marks a
missing key. -/
structure Entry where
  id : Option JVal := none
  index : Option Int := none
  element : Option Int := none
  inUse : Option Bool := none
  activable : Option Bool := none
  active : Option Bool := none
  excluded : Option Bool := none
  alarm : Option Bool := none
  doNotRequireAuthentication : Option Bool := none
  controlDeniedToUsers : Option Bool := none
  deriving Repr, DecidableEq

/-- The `last_id` computation of `ElmoClient.query`:
`max(entry["Id"] for entry in entries)` inside a
`try ... except (TypeError, ValueError): last_id = 0`.  A `KeyError`
raised by the generator is *not* caught and escapes as a generic
key-lookup failure. -/
def computeLastId (entries : List Entry) : Except ApiError JVal :=
  match pyMaxIds (entries.map Entry.id) with
  | .ok v => .ok v
  | .error .typeErr => .ok (.jnum 0)
  | .error .valueErr => .ok (.jnum 0)
  | .error .keyErr => .error (.keyError "Id")

/-- A normalized entity record.  The category-specific flags are `none`
when the category does not carry them. -/
structure Item where
  id : Option JVal
  index : Option Int
  element : Option Int
  name : String
  activable : Option Bool := none
  excluded : Option Bool := none
  do_not_require_authentication : Option Bool := none
  control_denied_to_users : Option Bool := none
  status : Option Bool := none
  deriving Repr, DecidableEq

/-- The record built for one in-use entry: the `.get`-based fields, the
name resolved through the description cache with the literal default
`"Unknown"` (`description.get(entry["Index"], "Unknown")` — the subscript
raises `KeyError` when `"Index"` is missing), and the category-specific
flags. -/
def buildItem (qry : Query) (d : Descriptions) (e : Entry) : Except ApiError Item :=
  match e.index with
  | none => .error (.keyError "Index")
  | some idx =>
    let names := (List.lookup (queryClass qry) d).getD []
    let nm := (List.lookup idx names).getD "Unknown"
    let base : Item := { id := e.id, index := e.index, element := e.element, name := nm }
    .ok (match qry with
      | .sectors =>
        { base with
          activable := some (e.activable.getD false)
          status := some (e.active.getD false) }
      | .inputs =>
        { base with
          excluded := some (e.excluded.getD false)
          status := some (e.alarm.getD false) }
      | .outputs =>
        { base with
          do_not_require_authentication := some (e.doNotRequireAuthentication.getD false)
          control_denied_to_users := some (e.controlDeniedToUsers.getD false)
          status := some (e.active.getD false) }
      | _ => base)

/-- The record-building loop of `ElmoClient.query`: skip entries not in
use (`entry["InUse"]` raising `KeyError` when missing), build the record
and store it under `entry.get("Index")`. -/
def buildItems (qry : Query) (d : Descriptions) :
    List (Option Int × Item) → List Entry → Except ApiError (List (Option Int × Item))
  | acc, [] => .ok acc
  | acc, e :: rest =>
    match e.inUse with
    | none => .error (.keyError "InUse")
    | some false => buildItems qry d acc rest
    | some true =>
      match buildItem qry d e with
      | .error er => .error er
      | .ok item => buildItems qry d (setA e.index item acc) rest

/-- The `try/except KeyError` around the record-building loop: a
`KeyError` raised inside becomes `ParseError`. -/
def parseItems (qry : Query) (d : Descriptions) (entries : List Entry) :
    Except ApiError (List (Option Int × Item)) :=
  match buildItems qry d [] entries with
  | .error (.keyError _) => .error .parseError
  | .error e => .error e
  | .ok items => .ok items

/-- `needle` begins `hay`. -/
def leadsList : List Char → List Char → Bool
  | [], _ => true
  | _ :: _, [] => false
  | a :: as, b :: bs => a = b && leadsList as bs

/-- `needle in hay` on character lists. -/
def hasSubList (needle : List Char) : List Char → Bool
  | [] => leadsList needle []
  | b :: bs => leadsList needle (b :: bs) || hasSubList needle bs

/-- Python `needle in hay` on strings. -/
def strHasSub (hay needle : String) : Bool := hasSubList needle.toList hay.toList

/-- An entity-list response (`/api/areas`, `/api/inputs`,
`/api/outputs`): status code, raw body text (inspected for the vendor
disconnection message) and the parsed entries. -/
structure EntitiesResponse where
  status : Nat
  text : String
  entries : List Entry
  deriving Repr, DecidableEq

/-- An `/api/statusadv` response; `none` marks a missing key (or an
unparseable body). -/
structure AlertsResponse where
  status : Nat
  text : String
  statusUid : Option JVal
  panelLeds : Option Dict
  panelAnomalies : Option Dict
  deriving Repr, DecidableEq

/-- One alert record: snake_cased flag name and its raw value. -/
structure AlertItem where
  alertName : String
  alertStatus : JVal
  deriving Repr, DecidableEq

/-- The data part of a `query` result. -/
inductive QueryData where
  | entities (items : List (Option Int × Item))
  | panelData (d : Dict)
  | alertsData (xs : List (Nat × AlertItem))
  deriving Repr, DecidableEq

/-- A `query` result: the `last_id` watermark plus the category data. -/
structure QueryOut where
  last_id : JVal
  data : QueryData
  deriving Repr, DecidableEq

/-- `{**a, **b}`: entries of `b` overwrite those of `a`. -/
def mergeDict (a b : Dict) : Dict := b.foldl (fun acc kv => setA kv.1 kv.2 acc) a

/-- Stable insertion of a key/value pair into a list sorted by key. -/
def insertByKey (kv : String × JVal) : Dict → Dict
  | [] => [kv]
  | kv' :: rest =>
    if compare kv.1 kv'.1 ≠ Ordering.gt then kv :: kv' :: rest
    else kv' :: insertByKey kv rest

/-- Python `sorted(d.items())` for a dict (keys are unique, so only the
keys are ever compared). -/
def sortByKey (d : Dict) : Dict := d.foldr insertByKey []

/-- The endpoint `query` selects for an entity category. -/
def entityEndpoint (qry : Query) (base : String) : String :=
  match qry with
  | .inputs => Router.inputs base
  | .outputs => Router.outputs base
  | _ => Router.sectors base

/-- The `raise_for_status` wrapper of `query`: an HTTP 403 whose body
contains the vendor string `"Centrale non connessa"` becomes
`DeviceDisconnectedError`; any other non-2xx is re-raised. -/
def queryStatusCheck (status : Nat) (text : String) : Except ApiError Unit :=
  if is2xx status then .ok ()
  else if status = 403 && strHasSub text "Centrale non connessa" then
    .error .deviceDisconnected
  else .error (.httpError status)

/-- The sectors/inputs/outputs branch of `ElmoClient.query`: POST to the
category endpoint, check the status, fetch (or reuse) the description
cache, compute `last_id`, then build the in-use records. -/
def queryEntities_raw (qry : Query) (resp : EntitiesResponse) (descResp : DescResponse)
    (s : ClientState) : Outcome QueryOut :=
  let req : Request := ⟨entityEndpoint qry s.base_url, [("sessionId", .v (sessionVal s))]⟩
  match queryStatusCheck resp.status resp.text with
  | .error e => ⟨.error e, s, [req]⟩
  | .ok _ =>
    let od := get_descriptions descResp s
    match od.result with
    | .error e => ⟨.error e, od.state, req :: od.log⟩
    | .ok d =>
      match computeLastId resp.entries with
      | .error e => ⟨.error e, od.state, req :: od.log⟩
      | .ok lid =>
        match parseItems qry d resp.entries with
        | .error e => ⟨.error e, od.state, req :: od.log⟩
        | .ok items => ⟨.ok ⟨lid, .entities items⟩, od.state, req :: od.log⟩

/-- The alerts branch of `ElmoClient.query`: a missing key raises
`ParseError`; the two flag dictionaries are merged, sorted by key,
renamed to snake_case and re-keyed by position; `last_id` is the
server-provided `StatusUid`. -/
def queryAlerts_raw (resp : AlertsResponse) (s : ClientState) : Outcome QueryOut :=
  let req : Request := ⟨Router.status s.base_url, [("sessionId", .v (sessionVal s))]⟩
  match queryStatusCheck resp.status resp.text with
  | .error e => ⟨.error e, s, [req]⟩
  | .ok _ =>
    match resp.statusUid, resp.panelLeds, resp.panelAnomalies with
    | some uid, some leds, some anomalies =>
      let merged := mergeDict leds anomalies
      let pairs := (sortByKey merged).map
        (fun kv => AlertItem.mk (_camel_to_snake_case kv.1) kv.2)
      ⟨.ok ⟨uid, .alertsData pairs.enum⟩, s, [req]⟩
    | _, _, _ => ⟨.error .parseError, s, [req]⟩

/-- The panel branch of `ElmoClient.query`: no network request, `last_id`
0, and a deep copy of the panel metadata captured at login (the empty
dict when `self._panel` is `None` or empty). -/
def queryPanel_raw (s : ClientState) : Outcome QueryOut :=
  let d : Dict :=
    match s.panel with
    | some p => if p = [] then [] else p
    | none => []
  ⟨.ok ⟨.jnum 0, .panelData d⟩, s, []⟩

/-- `ElmoClient.query` with its decorator: dispatch on the category (the
`QueryNotValid` branch is unreachable here because `Query` enumerates
exactly the recognized categories). -/
def query (qry : Query) (resp : EntitiesResponse) (descResp : DescResponse)
    (alertsResp : AlertsResponse) : ClientState → Outcome QueryOut :=
  require_session (fun s =>
    match qry with
    | .panel => queryPanel_raw s
    | .alerts => queryAlerts_raw alertsResp s
    | _ => queryEntities_raw qry resp descResp s)

/-- Object-identity model for the panel branch: dictionaries live in
heap cells and the client's `_panel` attribute is a reference.
`copy.deepcopy` (and the `{}` literal of the falsy branch) allocates a
fresh cell. -/
structure PanelHeap where
  cells : List Dict
  deriving Repr, DecidableEq

/-- Dereference. -/
def heapGet (h : PanelHeap) (r : Nat) : Option Dict := h.cells.get? r

/-- In-place mutation of the dictionary behind a reference. -/
def heapSet (h : PanelHeap) (r : Nat) (v : Dict) : PanelHeap := ⟨h.cells.set r v⟩

/-- Allocation of a fresh dictionary. -/
def heapAlloc (h : PanelHeap) (v : Dict) : PanelHeap × Nat :=
  (⟨h.cells ++ [v]⟩, h.cells.length)

/-- `query(q.PANEL)` in the heap model: read the stored panel (if any),
deep-copy it into a fresh cell and return that reference together with
`last_id = 0`.  The stored reference is never touched. -/
def queryPanelHeap (h : PanelHeap) (panelRef : Option Nat) : PanelHeap × Nat × JVal :=
  let v : Dict :=
    match panelRef with
    | some r =>
      match heapGet h r with
      | some p => if p = [] then [] else p
      | none => []
    | none => []
  let (h', r') := heapAlloc h v
  (h', r', .jnum 0)

/-! ## Theorems -/

/-- **C1.** With a valid session, every write command (arm, disarm,
include, exclude) invoked while the local lock flag is free raises
`LockNotAcquired`, performs zero network calls and leaves the state
unchanged; and every `lock(code)` context that was entered and exits
(normally or by exception), when its closing `unlock` succeeds, leaves
the local lock flag free — the `finally` clause invokes `unlock` on every
exit path, and the body's outcome (value or exception) is what the block
reports. -/
theorem write_without_lock_and_scoped_release
    (s : ClientState) (tok : String)
    (hsess : s.session_id = some tok) (hfree : s.locked = false) :
    (∀ sectors resp, arm sectors resp s = ⟨.error .lockNotAcquired, s, []⟩) ∧
    (∀ sectors resp, disarm sectors resp s = ⟨.error .lockNotAcquired, s, []⟩) ∧
    (∀ inputs resps, include' inputs resps s = ⟨.error .lockNotAcquired, s, []⟩) ∧
    (∀ inputs resps, exclude inputs resps s = ⟨.error .lockNotAcquired, s, []⟩) ∧
    (∀ {α : Type} (code : JVal) (uid : Int) (resp : CmdResponse)
        (body : ClientState → Outcome α) (ustatus : Nat) (tok' : String),
      (lock_attempt code uid resp s).result = .ok () →
      (body (lock_attempt code uid resp s).state).state.session_id = some tok' →
      (body (lock_attempt code uid resp s).state).state.locked = true →
      is2xx ustatus = true →
      (lock_with code uid resp body ustatus s).state.locked = false ∧
      (lock_with code uid resp body ustatus s).result =
        (body (lock_attempt code uid resp s).state).result) := by
  refine ⟨?_, ?_, ?_, ?_, ?_⟩
  · intro sectors resp
    simp [arm, require_session, require_lock, hsess, hfree]
  · intro sectors resp
    simp [disarm, require_session, require_lock, hsess, hfree]
  · intro inputs resps
    simp [include', require_session, require_lock, hsess, hfree]
  · intro inputs resps
    simp [exclude, require_session, require_lock, hsess, hfree]
  · intro α code uid resp body ustatus tok' hatt hbs hbl hu
    have hlw : lock_with code uid resp body ustatus s =
        ⟨(body (lock_attempt code uid resp s).state).result,
         { (body (lock_attempt code uid resp s).state).state with locked := false },
         (lock_attempt code uid resp s).log ++
           (body (lock_attempt code uid resp s).state).log ++
           (unlock ustatus (body (lock_attempt code uid resp s).state).state).log⟩ := by
      have hunlock : unlock ustatus (body (lock_attempt code uid resp s).state).state =
          ⟨.ok true,
           { (body (lock_attempt code uid resp s).state).state with locked := false },
           [⟨Router.unlock (body (lock_attempt code uid resp s).state).state.base_url,
             [("sessionId",
               .v (sessionVal (body (lock_attempt code uid resp s).state).state))]⟩]⟩ := by
        simp [unlock, require_session, require_lock, unlock_raw, hbs, hbl, hu]
      simp only [lock_with, hatt, hunlock]
    rw [hlw]
    exact ⟨rfl, rfl⟩

/-- Witness for C1 at a concrete client state, command and lock scope. -/
theorem write_without_lock_and_scoped_release_witness :
    (arm [3] ⟨200, [⟨some true⟩]⟩ ⟨"https://example.com", none, some "t", none, false, none⟩ =
      ⟨.error .lockNotAcquired,
        ⟨"https://example.com", none, some "t", none, false, none⟩, []⟩) ∧
    ((lock_with (.jstr "1234") 1 ⟨200, [⟨some true⟩]⟩
        (fun st => ⟨.ok true, st, []⟩) 200
        ⟨"https://example.com", none, some "t", none, false, none⟩).state.locked = false) := by
  refine ⟨?_, ?_⟩
  · exact (write_without_lock_and_scoped_release
      ⟨"https://example.com", none, some "t", none, false, none⟩ "t" rfl rfl).1 [3] _
  · exact ((write_without_lock_and_scoped_release
      ⟨"https://example.com", none, some "t", none, false, none⟩ "t" rfl rfl).2.2.2.2
      (.jstr "1234") 1 ⟨200, [⟨some true⟩]⟩ (fun st => ⟨.ok true, st, []⟩) 200 "t"
      rfl rfl rfl rfl).1

/-- **C2.** With a valid session: `unlock()` while the local flag is free
raises `LockNotAcquired` with no network call and no state change; on a
2xx remote response it returns `True` and releases the flag; on an HTTP
403 it raises `LockNotAcquired` and force-releases the flag; on any other
non-2xx failure it raises (`InvalidToken` for 401, the transport error
otherwise) and leaves the flag held. -/
theorem unlock_spec (s : ClientState) (tok : String) (ustatus : Nat)
    (hsess : s.session_id = some tok) :
    (s.locked = false → unlock ustatus s = ⟨.error .lockNotAcquired, s, []⟩) ∧
    (s.locked = true → is2xx ustatus = true →
      (unlock ustatus s).result = .ok true ∧ (unlock ustatus s).state.locked = false) ∧
    (s.locked = true → ustatus = 403 →
      (unlock ustatus s).result = .error .lockNotAcquired ∧
      (unlock ustatus s).state.locked = false) ∧
    (s.locked = true → is2xx ustatus = false → ustatus ≠ 403 →
      (unlock ustatus s).result =
        .error (if ustatus = 401 then .invalidToken else .httpError ustatus) ∧
      (unlock ustatus s).state.locked = true) := by
  refine ⟨?_, ?_, ?_, ?_⟩
  · intro hfree
    simp [unlock, require_session, require_lock, hsess, hfree]
  · intro hheld hok
    simp [unlock, require_session, require_lock, unlock_raw, hsess, hheld, hok]
  · intro hheld h403
    have hnot : is2xx 403 = false := rfl
    rw [h403]
    simp [unlock, require_session, require_lock, unlock_raw, hsess, hheld, hnot]
  · intro hheld hnot hne
    by_cases h401 : ustatus = 401
    · have hn : is2xx 401 = false := rfl
      rw [h401]
      simp [unlock, require_session, require_lock, unlock_raw, hsess, hheld, hn]
    · simp [unlock, require_session, require_lock, unlock_raw, hsess, hheld, hnot, hne,
        h401]

/-- Witness for C2: a held lock and a 200 unlock response. -/
theorem unlock_spec_witness :
    (unlock 200 ⟨"https://example.com", none, some "t", none, true, none⟩).result = .ok true ∧
    (unlock 200 ⟨"https://example.com", none, some "t", none, true, none⟩).state.locked =
      false :=
  (unlock_spec ⟨"https://example.com", none, some "t", none, true, none⟩ "t" 200
    rfl).2.1 rfl rfl

/-- **C3.** `lock(code, user_id)` with a valid session and a free local
flag: HTTP 403 raises `LockError`, HTTP 401 raises `InvalidToken`, a 2xx
response whose first body element carries `Successful == False` raises
`CodeError` — in each case with the state (in particular the free flag)
unchanged after the single lock request — and the local flag is acquired
iff the response is 2xx with `Successful == True` in its first body
element. -/
theorem lock_spec (s : ClientState) (tok : String) (code : JVal) (uid : Int)
    (resp : CmdResponse) (hsess : s.session_id = some tok) (hfree : s.locked = false) :
    (resp.status = 403 →
      (lock_attempt code uid resp s).result = .error .lockError ∧
      (lock_attempt code uid resp s).state = s ∧
      (lock_attempt code uid resp s).log.length = 1) ∧
    (resp.status = 401 →
      (lock_attempt code uid resp s).result = .error .invalidToken ∧
      (lock_attempt code uid resp s).state = s) ∧
    (is2xx resp.status = true → firstSuccessful resp.body = .ok false →
      (lock_attempt code uid resp s).result = .error .codeError ∧
      (lock_attempt code uid resp s).state = s) ∧
    ((lock_attempt code uid resp s).state.locked = true ↔
      is2xx resp.status = true ∧ firstSuccessful resp.body = .ok true) := by
  obtain ⟨rstatus, rbody⟩ := resp
  refine ⟨?_, ?_, ?_, ?_⟩
  · intro h403
    simp only at h403
    subst h403
    have hnot : is2xx 403 = false := rfl
    simp [lock_attempt, hsess, hnot]
  · intro h401
    simp only at h401
    subst h401
    have hnot : is2xx 401 = false := rfl
    simp [lock_attempt, hsess, hnot]
  · intro hok hfs
    simp only at hok hfs
    simp [lock_attempt, hsess, hok, hfs]
  · simp only
    constructor
    · intro hacq
      by_cases hok : is2xx rstatus = true
      · rcases hfs : firstSuccessful rbody with e | b
        · simp [lock_attempt, hsess, hok, hfs] at hacq
          exact absurd hacq (by rw [hfree]; simp)
        · cases b
          · simp [lock_attempt, hsess, hok, hfs] at hacq
            exact absurd hacq (by rw [hfree]; simp)
          · exact ⟨hok, rfl⟩
      · have hnot : is2xx rstatus = false := by
          cases h : is2xx rstatus
          · rfl
          · exact absurd h hok
        by_cases h403 : rstatus = 403
        · subst h403
          have hn : is2xx 403 = false := rfl
          simp [lock_attempt, hsess, hn] at hacq
          exact absurd hacq (by rw [hfree]; simp)
        · by_cases h401 : rstatus = 401
          · subst h401
            have hn : is2xx 401 = false := rfl
            simp [lock_attempt, hsess, hn] at hacq
            exact absurd hacq (by rw [hfree]; simp)
          · simp [lock_attempt, hsess, hnot, h403, h401] at hacq
            exact absurd hacq (by rw [hfree]; simp)
    · rintro ⟨hok, hfs⟩
      simp [lock_attempt, hsess, hok, hfs]

/-- Witness for C3: the example scenario — a 200 response with
`Successful: false` (a wrong code) raises `CodeError` and leaves the flag
free. -/
theorem lock_spec_witness :
    (lock_attempt (.jstr "wrong-code") 1 ⟨200, [⟨some false⟩]⟩
      ⟨"https://example.com", none, some "t", none, false, none⟩).result =
        .error .codeError ∧
    (lock_attempt (.jstr "wrong-code") 1 ⟨200, [⟨some false⟩]⟩
      ⟨"https://example.com", none, some "t", none, false, none⟩).state =
        ⟨"https://example.com", none, some "t", none, false, none⟩ :=
  (lock_spec ⟨"https://example.com", none, some "t", none, false, none⟩ "t"
    (.jstr "wrong-code") 1 ⟨200, [⟨some false⟩]⟩ rfl rfl).2.2.1 rfl rfl

/-- `auth` never issues more than two login requests, whatever the
responses look like. -/
theorem auth_log_le_two (u p : String) (r1 r2 : AuthResponse) (s : ClientState) :
    (auth u p r1 r2 s).log.length ≤ 2 := by
  unfold auth
  repeat' split
  all_goals simp

/-- **C4.** For a successful `authenticate`: without a redirect the
stored token is the one of the (single) response and the endpoint is
unchanged, with exactly 1 login request; with a redirect the stored token
comes from the second response, the endpoint becomes the redirect target,
and exactly 2 login requests are made; and in every case at most 2 login
requests are made — in particular even when the second response again
signals a redirect, which `auth` never reads. -/
theorem auth_spec (s : ClientState) (u p t1 : String) (r1 r2 : AuthResponse)
    (h1 : is2xx r1.status = true) (ht1 : r1.sessionId = some t1) :
    (r1.redirect = some false →
      (auth u p r1 r2 s).result = .ok t1 ∧
      (auth u p r1 r2 s).state.session_id = some t1 ∧
      (auth u p r1 r2 s).state.base_url = s.base_url ∧
      (auth u p r1 r2 s).log.length = 1) ∧
    (∀ target t2, r1.redirect = some true → r1.redirectTo = some target →
      is2xx r2.status = true → r2.sessionId = some t2 →
      (auth u p r1 r2 s).result = .ok t2 ∧
      (auth u p r1 r2 s).state.session_id = some t2 ∧
      (auth u p r1 r2 s).state.base_url = target ∧
      (auth u p r1 r2 s).log.length = 2) ∧
    (auth u p r1 r2 s).log.length ≤ 2 := by
  refine ⟨?_, ?_, auth_log_le_two u p r1 r2 s⟩
  · intro hrd
    simp [auth, h1, ht1, hrd]
  · intro target t2 hrd hto h2 ht2
    simp [auth, h1, ht1, hrd, hto, h2, ht2]

/-- Witness for C4: the spec's redirect scenario, with the second
response itself signalling a redirect again — still exactly 2 requests,
final token from the second response, endpoint rewritten. -/
theorem auth_spec_witness :
    (auth "user" "pw" ⟨200, some "S1", some true, some "https://r", []⟩
        ⟨200, some "S2", some true, some "https://r2", []⟩
        ⟨"https://example.com", none, none, none, false, none⟩).result = .ok "S2" ∧
    (auth "user" "pw" ⟨200, some "S1", some true, some "https://r", []⟩
        ⟨200, some "S2", some true, some "https://r2", []⟩
        ⟨"https://example.com", none, none, none, false, none⟩).state.session_id =
      some "S2" ∧
    (auth "user" "pw" ⟨200, some "S1", some true, some "https://r", []⟩
        ⟨200, some "S2", some true, some "https://r2", []⟩
        ⟨"https://example.com", none, none, none, false, none⟩).state.base_url =
      "https://r" ∧
    (auth "user" "pw" ⟨200, some "S1", some true, some "https://r", []⟩
        ⟨200, some "S2", some true, some "https://r2", []⟩
        ⟨"https://example.com", none, none, none, false, none⟩).log.length = 2 :=
  (auth_spec ⟨"https://example.com", none, none, none, false, none⟩ "user" "pw" "S1"
      ⟨200, some "S1", some true, some "https://r", []⟩
      ⟨200, some "S2", some true, some "https://r2", []⟩ rfl rfl).2.1
    "https://r" "S2" rfl rfl rfl rfl

/-- **C8 (amended).** A 403 on the *initial* login raises
`CredentialError` and any other non-2xx on it propagates as the transport
error; but the re-issued login after a redirect sits outside the
`try/except`, so a non-2xx there — 403 included — always propagates as
the plain `HTTPError`. -/
theorem auth_403_handling (u p : String) (r1 r2 : AuthResponse) (s : ClientState) :
    (r1.status = 403 →
      (auth u p r1 r2 s).result = .error .credentialError ∧
      (auth u p r1 r2 s).log.length = 1) ∧
    (is2xx r1.status = false → r1.status ≠ 403 →
      (auth u p r1 r2 s).result = .error (.httpError r1.status)) ∧
    (∀ t1 target, is2xx r1.status = true → r1.sessionId = some t1 →
      r1.redirect = some true → r1.redirectTo = some target →
      is2xx r2.status = false →
      (auth u p r1 r2 s).result = .error (.httpError r2.status)) := by
  refine ⟨?_, ?_, ?_⟩
  · intro h403
    obtain ⟨rst, rsess, rrd, rto, rpanel⟩ := r1
    simp only at h403
    subst h403
    have hn : is2xx 403 = false := rfl
    simp [auth, hn]
  · intro hnot hne
    simp [auth, hnot, hne]
  · intro t1 target h1 ht1 hrd hto h2
    simp [auth, h1, ht1, hrd, hto, h2]

/-- Witness for the amended C8: a 403 on the initial login raises
`CredentialError` after the single request. -/
theorem auth_403_handling_witness :
    (auth "user" "pw" ⟨403, none, none, none, []⟩ ⟨200, some "S", some false, none, []⟩
        ⟨"https://example.com", none, none, none, false, none⟩).result =
      .error .credentialError ∧
    (auth "user" "pw" ⟨403, none, none, none, []⟩ ⟨200, some "S", some false, none, []⟩
        ⟨"https://example.com", none, none, none, false, none⟩).log.length = 1 :=
  (auth_403_handling "user" "pw" ⟨403, none, none, none, []⟩
    ⟨200, some "S", some false, none, []⟩
    ⟨"https://example.com", none, none, none, false, none⟩).1 rfl

/-- Counterexample for C8 as stated: a 403 answering the re-issued
post-redirect login propagates as the transport `HTTPError`, not as
`CredentialError`. -/
theorem auth_redirect_403_counterexample :
    (auth "user" "pw" ⟨200, some "S1", some true, some "https://r", []⟩
        ⟨403, some "S2", some false, none, []⟩
        ⟨"https://example.com", none, none, none, false, none⟩).result =
      .error (.httpError 403) ∧
    (Except.error (ApiError.httpError 403) : Except ApiError String) ≠
      .error .credentialError := by
  exact ⟨rfl, by decide⟩

/-- **C6.** `poll`'s `has_changes` is exactly the logical OR of the four
per-category booleans of the response, and the outcome is entirely
independent of the server's raw `HasChanges` flag. -/
theorem poll_has_changes (s : ClientState) (tok : String) (ids : Ids)
    (resp : PollResponse) (a i o st : Bool)
    (hsess : s.session_id = some tok) (hok : is2xx resp.status = true)
    (ha : resp.areas = some a) (hi : resp.inputs = some i)
    (ho : resp.outputs = some o) (hst : resp.statusAdv = some st) :
    (poll ids resp s).result = .ok ⟨a || i || o || st, a, i, o, st⟩ ∧
    (poll ids resp s).state = s ∧
    (∀ hc : Option Bool, poll ids { resp with hasChanges := hc } s = poll ids resp s) := by
  refine ⟨?_, ?_, ?_⟩
  · simp [poll, require_session, poll_raw, hsess, hok, ha, hi, ho, hst]
  · simp [poll, require_session, poll_raw, hsess, hok, ha, hi, ho, hst]
  · intro hc
    rfl

/-- Witness for C6: the regression payload — raw `HasChanges` true, all
four category flags false — yields `has_changes = False`. -/
theorem poll_has_changes_witness :
    (poll ⟨1, 2, 3, 4⟩ ⟨200, some true, some false, some false, some false, some false⟩
      ⟨"https://example.com", none, some "t", none, false, none⟩).result =
      .ok ⟨false, false, false, false, false⟩ :=
  (poll_has_changes ⟨"https://example.com", none, some "t", none, false, none⟩ "t"
    ⟨1, 2, 3, 4⟩ ⟨200, some true, some false, some false, some false, some false⟩
    false false false false rfl rfl rfl rfl rfl rfl).1

/-- When the wrapped call raises no `HTTPError`, the two decorators (with
a valid session and a held lock) are transparent. -/
theorem decorators_pass {α : Type} (f : ClientState → Outcome α) (s : ClientState)
    (tok : String) (hsess : s.session_id = some tok) (hlock : s.locked = true)
    (h : ∀ st, (f s).result ≠ .error (.httpError st)) :
    require_session (require_lock f) s = f s := by
  cases hr : (f s).result with
  | ok a => simp [require_session, require_lock, hsess, hlock, hr]
  | error e =>
    cases e
    case httpError st => exact absurd hr (h st)
    all_goals simp [require_session, require_lock, hsess, hlock, hr]

/-- How the two decorators translate an `HTTPError` raised by the wrapped
call: 403 becomes `LockNotAcquired` and releases the local lock, 401
becomes `InvalidToken`, anything else passes through. -/
theorem decorators_http {α : Type} (f : ClientState → Outcome α) (s : ClientState)
    (tok : String) (st : Nat) (hsess : s.session_id = some tok) (hlock : s.locked = true)
    (h : (f s).result = .error (.httpError st)) :
    require_session (require_lock f) s =
      if st = 403 then
        ⟨.error .lockNotAcquired, { (f s).state with locked := false }, (f s).log⟩
      else if st = 401 then ⟨.error .invalidToken, (f s).state, (f s).log⟩
      else f s := by
  by_cases h403 : st = 403
  · simp [require_session, require_lock, hsess, hlock, h, h403]
  · by_cases h401 : st = 401
    · simp [require_session, require_lock, hsess, hlock, h, h403, h401]
    · simp [require_session, require_lock, hsess, hlock, h, h403, h401]

/-- When every response is 2xx with a well-formed body, the command loop
of `include`/`exclude` issues exactly one request per input id (in input
order, carrying that id), and collects a failing-ids list which is empty
iff every response had `Successful == True`. -/
theorem sendEach_all_ok (ct : Int) (resps : Nat → CmdResponse) (s : ClientState) :
    ∀ (inputs : List Int) (i : Nat),
    (∀ k, k < inputs.length → is2xx (resps (i + k)).status = true) →
    (∀ k, k < inputs.length → ∃ b, firstSuccessful (resps (i + k)).body = .ok b) →
    (sendEach ct resps s i inputs).1 =
      inputs.map (fun e => ⟨Router.send_command s.base_url, inputPayload ct e s⟩) ∧
    ∃ l, (sendEach ct resps s i inputs).2 = .ok l ∧
      (l = [] ↔ ∀ k, k < inputs.length →
        firstSuccessful (resps (i + k)).body = .ok true) := by
  intro inputs
  induction inputs with
  | nil =>
    intro i h1 h2
    exact ⟨rfl, [], rfl, by simp⟩
  | cons e rest ih =>
    intro i h1 h2
    have h1o : is2xx (resps i).status = true := by
      have := h1 0 (by simp)
      rwa [Nat.add_zero] at this
    obtain ⟨b0, hb0⟩ := h2 0 (by simp)
    rw [Nat.add_zero] at hb0
    have ih' := ih (i + 1)
      (fun k hk => by
        have := h1 (k + 1) (by simpa using Nat.succ_lt_succ hk)
        rwa [show i + (k + 1) = i + 1 + k by omega] at this)
      (fun k hk => by
        have := h2 (k + 1) (by simpa using Nat.succ_lt_succ hk)
        rwa [show i + (k + 1) = i + 1 + k by omega] at this)
    obtain ⟨hlog, l', hl', hiff⟩ := ih'
    have hunf : sendEach ct resps s i (e :: rest) =
        (⟨Router.send_command s.base_url, inputPayload ct e s⟩ ::
           (sendEach ct resps s (i + 1) rest).1,
         .ok (if b0 then l' else e :: l')) := by
      simp only [sendEach, h1o, hb0, if_true, hl']
    rw [hunf]
    refine ⟨by simp [hlog], if b0 then l' else e :: l', rfl, ?_⟩
    cases b0 with
    | true =>
      simp only [if_true]
      rw [hiff]
      constructor
      · intro hall k hk
        cases k with
        | zero => rwa [Nat.add_zero]
        | succ k' =>
          have := hall k' (by simpa using Nat.lt_of_succ_lt_succ hk)
          rwa [show i + 1 + k' = i + (k' + 1) by omega] at this
      · intro hall k hk
        have := hall (k + 1) (by simpa using Nat.succ_lt_succ hk)
        rwa [show i + (k + 1) = i + 1 + k by omega] at this
    | false =>
      rw [show (if false = true then l' else e :: l') = e :: l' from rfl]
      constructor
      · intro hc
        exact absurd hc (by simp)
      · intro hall
        have := hall 0 (by simp)
        rw [Nat.add_zero, hb0] at this
        exact absurd this (by simp)

/-- When the first `k` responses are well-formed 2xx and the `k`-th is
non-2xx, the command loop aborts there: the raised error is the transport
`HTTPError` of that response and exactly `k + 1` requests were issued. -/
theorem sendEach_first_err (ct : Int) (resps : Nat → CmdResponse) (s : ClientState) :
    ∀ (inputs : List Int) (k i : Nat),
    k < inputs.length →
    (∀ j, j < k → is2xx (resps (i + j)).status = true ∧
      ∃ b, firstSuccessful (resps (i + j)).body = .ok b) →
    is2xx (resps (i + k)).status = false →
    (sendEach ct resps s i inputs).2 = .error (.httpError (resps (i + k)).status) ∧
    (sendEach ct resps s i inputs).1.length = k + 1 := by
  intro inputs
  induction inputs with
  | nil =>
    intro k i hk
    exact absurd hk (by simp)
  | cons e rest ih =>
    intro k i hk hpre hbad
    cases k with
    | zero =>
      rw [Nat.add_zero] at hbad
      have hnot : is2xx (resps i).status = true → False := by
        intro h; rw [h] at hbad; exact Bool.noConfusion hbad
      have hunf : sendEach ct resps s i (e :: rest) =
          ([⟨Router.send_command s.base_url, inputPayload ct e s⟩],
           .error (.httpError (resps i).status)) := by
        simp only [sendEach, hbad]
        rfl
      rw [hunf, Nat.add_zero]
      exact ⟨rfl, rfl⟩
    | succ k' =>
      obtain ⟨h0ok, b0, hb0⟩ := hpre 0 (Nat.succ_pos k')
      rw [Nat.add_zero] at h0ok hb0
      have ih' := ih k' (i + 1)
        (by simpa using Nat.lt_of_succ_lt_succ hk)
        (fun j hj => by
          have := hpre (j + 1) (by simpa using Nat.succ_lt_succ hj)
          rwa [show i + (j + 1) = i + 1 + j by omega] at this)
        (by rwa [show i + (k' + 1) = i + 1 + k' by omega] at hbad)
      obtain ⟨herr, hlen⟩ := ih'
      have hunf : sendEach ct resps s i (e :: rest) =
          (⟨Router.send_command s.base_url, inputPayload ct e s⟩ ::
             (sendEach ct resps s (i + 1) rest).1,
           .error (.httpError (resps (i + 1 + k')).status)) := by
        simp only [sendEach, h0ok, hb0, if_true, herr]
      rw [hunf]
      refine ⟨by rw [show i + (k' + 1) = i + 1 + k' by omega], by simp [hlen]⟩

/-- **C9 (amended).** With a valid session and a held lock,
`include(inputs)` and `exclude(inputs)` issue exactly one command request
per input id, in order and carrying that id (no batching); when every
response is 2xx, `CommandError` is raised iff some response body carries
`Successful == False` (and `True` is returned when none does).  When the
first `k` responses are fine and the `k`-th is non-2xx: a 401 raises
`InvalidToken`, a 403 raises `LockNotAcquired` and force-releases the
local lock (the `require_lock` decorator, not a pass-through), and any
other non-2xx propagates unchanged as the transport error. -/
theorem include_exclude_spec (s : ClientState) (tok : String) (inputs : List Int)
    (resps : Nat → CmdResponse)
    (hsess : s.session_id = some tok) (hlock : s.locked = true) :
    ((∀ k, k < inputs.length → is2xx (resps k).status = true) →
      (∀ k, k < inputs.length → ∃ b, firstSuccessful (resps k).body = .ok b) →
      (include' inputs resps s).log =
        inputs.map (fun e => ⟨Router.send_command s.base_url, inputPayload 1 e s⟩) ∧
      (exclude inputs resps s).log =
        inputs.map (fun e => ⟨Router.send_command s.base_url, inputPayload 2 e s⟩) ∧
      ((∃ k, k < inputs.length ∧ firstSuccessful (resps k).body = .ok false) →
        (include' inputs resps s).result = .error .commandError ∧
        (exclude inputs resps s).result = .error .commandError) ∧
      ((∀ k, k < inputs.length → firstSuccessful (resps k).body = .ok true) →
        (include' inputs resps s).result = .ok true ∧
        (exclude inputs resps s).result = .ok true)) ∧
    (∀ k, k < inputs.length →
      (∀ j, j < k → is2xx (resps j).status = true ∧
        ∃ b, firstSuccessful (resps j).body = .ok b) →
      is2xx (resps k).status = false →
      ((resps k).status = 401 →
        (include' inputs resps s).result = .error .invalidToken ∧
        (include' inputs resps s).state = s ∧
        (exclude inputs resps s).result = .error .invalidToken) ∧
      ((resps k).status = 403 →
        (include' inputs resps s).result = .error .lockNotAcquired ∧
        (include' inputs resps s).state.locked = false ∧
        (exclude inputs resps s).result = .error .lockNotAcquired) ∧
      ((resps k).status ≠ 401 → (resps k).status ≠ 403 →
        (include' inputs resps s).result = .error (.httpError (resps k).status) ∧
        (exclude inputs resps s).result = .error (.httpError (resps k).status))) := by
  constructor
  · intro h2xx hbody
    obtain ⟨hlog1, l1, hl1, hiff1⟩ := sendEach_all_ok 1 resps s inputs 0
      (fun k hk => by rw [Nat.zero_add]; exact h2xx k hk)
      (fun k hk => by rw [Nat.zero_add]; exact hbody k hk)
    obtain ⟨hlog2, l2, hl2, hiff2⟩ := sendEach_all_ok 2 resps s inputs 0
      (fun k hk => by rw [Nat.zero_add]; exact h2xx k hk)
      (fun k hk => by rw [Nat.zero_add]; exact hbody k hk)
    simp only [Nat.zero_add] at hiff1 hiff2
    have hinc : include_raw inputs resps s =
        ⟨match l1 with | [] => .ok true | _ :: _ => .error .commandError, s,
         (sendEach 1 resps s 0 inputs).1⟩ := by
      cases l1 with
      | nil => simp only [include_raw, hl1]
      | cons a as => simp only [include_raw, hl1]
    have hexc : exclude_raw inputs resps s =
        ⟨match l2 with | [] => .ok true | _ :: _ => .error .commandError, s,
         (sendEach 2 resps s 0 inputs).1⟩ := by
      cases l2 with
      | nil => simp only [exclude_raw, hl2]
      | cons a as => simp only [exclude_raw, hl2]
    have hpass1 : include' inputs resps s = include_raw inputs resps s := by
      simp only [include']
      refine decorators_pass _ s tok hsess hlock ?_
      intro st hcontra
      rw [hinc] at hcontra
      cases l1 with
      | nil => exact Except.noConfusion hcontra
      | cons a as =>
        simp only at hcontra
        cases hcontra
    have hpass2 : exclude inputs resps s = exclude_raw inputs resps s := by
      simp only [exclude]
      refine decorators_pass _ s tok hsess hlock ?_
      intro st hcontra
      rw [hexc] at hcontra
      cases l2 with
      | nil => exact Except.noConfusion hcontra
      | cons a as =>
        simp only at hcontra
        cases hcontra
    refine ⟨by rw [hpass1, hinc]; exact hlog1, by rw [hpass2, hexc]; exact hlog2, ?_, ?_⟩
    · rintro ⟨k, hk, hfalse⟩
      have hne1 : l1 ≠ [] := by
        intro hnil
        have := (hiff1.mp hnil) k hk
        rw [hfalse] at this
        exact Except.noConfusion this (fun h => Bool.noConfusion h)
      have hne2 : l2 ≠ [] := by
        intro hnil
        have := (hiff2.mp hnil) k hk
        rw [hfalse] at this
        exact Except.noConfusion this (fun h => Bool.noConfusion h)
      constructor
      · rw [hpass1, hinc]
        cases l1 with
        | nil => exact absurd rfl hne1
        | cons a as => rfl
      · rw [hpass2, hexc]
        cases l2 with
        | nil => exact absurd rfl hne2
        | cons a as => rfl
    · intro halltrue
      have he1 : l1 = [] := hiff1.mpr halltrue
      have he2 : l2 = [] := hiff2.mpr halltrue
      subst he1
      subst he2
      exact ⟨by rw [hpass1, hinc], by rw [hpass2, hexc]⟩
  · intro k hk hpre hbad
    obtain ⟨herr1, hlen1⟩ := sendEach_first_err 1 resps s inputs k 0 hk
      (fun j hj => by rw [Nat.zero_add]; exact hpre j hj)
      (by rw [Nat.zero_add]; exact hbad)
    obtain ⟨herr2, hlen2⟩ := sendEach_first_err 2 resps s inputs k 0 hk
      (fun j hj => by rw [Nat.zero_add]; exact hpre j hj)
      (by rw [Nat.zero_add]; exact hbad)
    rw [Nat.zero_add] at herr1 herr2
    have hinc : include_raw inputs resps s =
        ⟨.error (.httpError (resps k).status), s, (sendEach 1 resps s 0 inputs).1⟩ := by
      simp only [include_raw, herr1]
    have hexc : exclude_raw inputs resps s =
        ⟨.error (.httpError (resps k).status), s, (sendEach 2 resps s 0 inputs).1⟩ := by
      simp only [exclude_raw, herr2]
    have hhttp1 := decorators_http (include_raw inputs resps) s tok (resps k).status
      hsess hlock (by rw [hinc])
    have hhttp2 := decorators_http (exclude_raw inputs resps) s tok (resps k).status
      hsess hlock (by rw [hexc])
    refine ⟨?_, ?_, ?_⟩
    · intro h401
      have hne403 : (resps k).status ≠ 403 := by rw [h401]; decide
      rw [if_neg hne403, if_pos h401] at hhttp1 hhttp2
      refine ⟨?_, ?_, ?_⟩
      · simp only [include', hhttp1]
      · simp only [include', hhttp1, hinc]
      · simp only [exclude, hhttp2]
    · intro h403
      rw [if_pos h403] at hhttp1 hhttp2
      refine ⟨?_, ?_, ?_⟩
      · simp only [include', hhttp1]
      · simp only [include', hhttp1]
      · simp only [exclude, hhttp2]
    · intro h401 h403
      rw [if_neg h403, if_neg h401] at hhttp1 hhttp2
      exact ⟨by simp only [include', hhttp1, hinc], by simp only [exclude, hhttp2, hexc]⟩

/-- Witness for C9: two inputs, both answered 200/`Successful: true` —
one request per input id and a `True` result. -/
theorem include_exclude_spec_witness :
    (include' [3, 5] (fun _ => ⟨200, [⟨some true⟩]⟩)
        ⟨"https://example.com", none, some "t", none, true, none⟩).log =
      [3, 5].map (fun e =>
        ⟨Router.send_command "https://example.com",
         inputPayload 1 e ⟨"https://example.com", none, some "t", none, true, none⟩⟩) ∧
    (include' [3, 5] (fun _ => ⟨200, [⟨some true⟩]⟩)
        ⟨"https://example.com", none, some "t", none, true, none⟩).result = .ok true := by
  have h := include_exclude_spec ⟨"https://example.com", none, some "t", none, true, none⟩
    "t" [3, 5] (fun _ => ⟨200, [⟨some true⟩]⟩) rfl rfl
  obtain ⟨ha, _⟩ := h
  obtain ⟨hlog, _, _, hok⟩ := ha (fun k hk => rfl) (fun k hk => ⟨true, rfl⟩)
  exact ⟨hlog, (hok (fun k hk => rfl)).1⟩

/-- Counterexample for C9 as stated: a 403 on a command request does not
propagate unchanged — `require_lock` turns it into `LockNotAcquired` and
force-releases the local lock. -/
theorem include_403_counterexample :
    (include' [1] (fun _ => ⟨403, []⟩)
        ⟨"https://example.com", none, some "t", none, true, none⟩).result =
      .error .lockNotAcquired ∧
    (include' [1] (fun _ => ⟨403, []⟩)
        ⟨"https://example.com", none, some "t", none, true, none⟩).state.locked = false ∧
    (Except.error ApiError.lockNotAcquired : Except ApiError Bool) ≠
      .error (.httpError 403) :=
  ⟨rfl, rfl, by decide⟩

/-- Running Python `max` over numeric ids yields a value that is one of
the candidates and bounds them all — the maximum, characterized
order-independently. -/
theorem pyMaxRun_nums (ns : List Int) :
    ∀ c : Int, ∃ M : Int,
      pyMaxRun (.jnum c) (ns.map (fun n => some (JVal.jnum n))) = .ok (.jnum M) ∧
      (M = c ∨ M ∈ ns) ∧ c ≤ M ∧ ∀ n ∈ ns, n ≤ M := by
  induction ns with
  | nil =>
    intro c
    exact ⟨c, rfl, Or.inl rfl, le_refl c, by simp⟩
  | cons n ns ih =>
    intro c
    by_cases h : compare n c = Ordering.gt
    · obtain ⟨M, hrun, hmem, hle, hbound⟩ := ih n
      refine ⟨M, ?_, ?_, ?_, ?_⟩
      · simp only [List.map, pyMaxRun, pyCompare, h, if_pos rfl]
        exact hrun
      · rcases hmem with hM | hM
        · exact Or.inr (by simp [hM])
        · exact Or.inr (by simp [hM])
      · have hcn : c < n := by rwa [compare_gt_iff_gt] at h
        exact le_of_lt (lt_of_lt_of_le hcn hle)
      · intro m hm
        rcases List.mem_cons.mp hm with hh | hh
        · rw [hh]; exact hle
        · exact hbound m hh
    · obtain ⟨M, hrun, hmem, hle, hbound⟩ := ih c
      refine ⟨M, ?_, ?_, ?_, ?_⟩
      · simp only [List.map, pyMaxRun, pyCompare, h, if_neg h]
        exact hrun
      · rcases hmem with hM | hM
        · exact Or.inl hM
        · exact Or.inr (by simp [hM])
      · exact hle
      · intro m hm
        rcases List.mem_cons.mp hm with hh | hh
        · have hnc : ¬ c < n := by rwa [compare_gt_iff_gt] at h
          rw [hh]
          exact le_trans (le_of_not_lt hnc) hle
        · exact hbound m hh

/-- `computeLastId` on a payload whose ids are all numeric returns the
maximum id (membership plus upper bound, hence independent of the
ordering of the entries). -/
theorem computeLastId_nums (entries : List Entry) (n0 : Int) (ns : List Int)
    (hids : entries.map Entry.id = (n0 :: ns).map (fun n => some (JVal.jnum n))) :
    ∃ M : Int, computeLastId entries = .ok (.jnum M) ∧
      M ∈ n0 :: ns ∧ ∀ n ∈ n0 :: ns, n ≤ M := by
  obtain ⟨M, hrun, hmem, hle, hbound⟩ := pyMaxRun_nums ns n0
  refine ⟨M, ?_, ?_, ?_⟩
  · rw [computeLastId, hids]
    simp only [List.map, pyMaxIds, hrun]
  · rcases hmem with h | h
    · simp [h]
    · simp [h]
  · intro n hn
    rcases List.mem_cons.mp hn with h | h
    · rw [h]; exact hle
    · exact hbound n h

/-- If a sectors/inputs/outputs query succeeds (2xx, description cache
already populated), `last_id` in its result is exactly what
`computeLastId` produced. -/
theorem queryEntities_last_id (qry : Query) (resp : EntitiesResponse)
    (descResp : DescResponse) (s : ClientState) (d : Descriptions)
    (hcache : s.descriptions = some d) (hok : is2xx resp.status = true) :
    ∀ r, (queryEntities_raw qry resp descResp s).result = .ok r →
      computeLastId resp.entries = .ok r.last_id := by
  intro r hr
  have hsc : queryStatusCheck resp.status resp.text = .ok () := by
    simp [queryStatusCheck, hok]
  have hdesc : get_descriptions descResp s = ⟨.ok d, s, []⟩ := by
    simp [get_descriptions, hcache]
  rw [queryEntities_raw, hsc, hdesc] at hr
  simp only at hr
  cases hlid : computeLastId resp.entries with
  | error e => rw [hlid] at hr; simp at hr
  | ok lid =>
    rw [hlid] at hr
    cases hpi : parseItems qry d resp.entries with
    | error e => rw [hpi] at hr; simp at hr
    | ok items =>
      rw [hpi] at hr
      simp only at hr
      cases hr
      rfl

/-- The only error `computeLastId` can raise is the uncaught `KeyError`
for a missing `"Id"`. -/
theorem computeLastId_err (entries : List Entry) :
    ∀ e, computeLastId entries = .error e → e = .keyError "Id" := by
  intro e h
  unfold computeLastId at h
  cases hp : pyMaxIds (entries.map Entry.id) with
  | ok v => rw [hp] at h; exact absurd h (by simp)
  | error me =>
    rw [hp] at h
    cases me with
    | typeErr => exact absurd h (by simp)
    | valueErr => exact absurd h (by simp)
    | keyErr => simp only at h; cases h; rfl

/-- `buildItem` can only fail with the `KeyError` of a missing
`"Index"`. -/
theorem buildItem_err (qry : Query) (d : Descriptions) (e : Entry) :
    ∀ er, buildItem qry d e = .error er → er = .keyError "Index" := by
  intro er h
  unfold buildItem at h
  cases hi : e.index with
  | none => rw [hi] at h; simp only at h; cases h; rfl
  | some idx => rw [hi] at h; simp at h

/-- The record-building loop can only fail with a `KeyError`. -/
theorem buildItems_err (qry : Query) (d : Descriptions) :
    ∀ (entries : List Entry) (acc : List (Option Int × Item)) er,
      buildItems qry d acc entries = .error er → ∃ k, er = .keyError k := by
  intro entries
  induction entries with
  | nil => intro acc er h; exact absurd h (by simp [buildItems])
  | cons e0 rest ih =>
    intro acc er h
    rw [buildItems] at h
    cases hu : e0.inUse with
    | none => rw [hu] at h; simp only at h; cases h; exact ⟨"InUse", rfl⟩
    | some b =>
      rw [hu] at h
      cases b with
      | false => exact ih acc er h
      | true =>
        cases hb : buildItem qry d e0 with
        | error er2 =>
          rw [hb] at h
          simp only at h
          injection h with h2
          subst h2
          exact ⟨"Index", buildItem_err qry d e0 _ hb⟩
        | ok item =>
          rw [hb] at h
          exact ih (setA e0.index item acc) er h

/-- The `except KeyError` wrapper turns every loop failure into
`ParseError`. -/
theorem parseItems_err (qry : Query) (d : Descriptions) (entries : List Entry) :
    ∀ e, parseItems qry d entries = .error e → e = .parseError := by
  intro e h
  unfold parseItems at h
  cases hb : buildItems qry d [] entries with
  | ok items => rw [hb] at h; exact absurd h (by simp)
  | error er =>
    obtain ⟨k, hk⟩ := buildItems_err qry d entries [] er hb
    subst hk
    rw [hb] at h
    simp only at h
    cases h
    rfl

/-- With a 2xx response and a populated description cache, a
sectors/inputs/outputs query can only fail with the missing-`Id`
`KeyError` or with `ParseError`. -/
theorem queryEntities_err_forms (qry : Query) (resp : EntitiesResponse)
    (descResp : DescResponse) (s : ClientState) (d : Descriptions)
    (hcache : s.descriptions = some d) (hok : is2xx resp.status = true) :
    ∀ e, (queryEntities_raw qry resp descResp s).result = .error e →
      e = .keyError "Id" ∨ e = .parseError := by
  intro e h
  have hsc : queryStatusCheck resp.status resp.text = .ok () := by
    simp [queryStatusCheck, hok]
  have hdesc : get_descriptions descResp s = ⟨.ok d, s, []⟩ := by
    simp [get_descriptions, hcache]
  rw [queryEntities_raw, hsc, hdesc] at h
  simp only at h
  cases hlid : computeLastId resp.entries with
  | error e2 =>
    rw [hlid] at h
    simp only at h
    injection h with h2
    subst h2
    exact Or.inl (computeLastId_err resp.entries _ hlid)
  | ok lid =>
    rw [hlid] at h
    cases hpi : parseItems qry d resp.entries with
    | error e2 =>
      rw [hpi] at h
      simp only at h
      injection h with h2
      subst h2
      exact Or.inr (parseItems_err qry d resp.entries _ hpi)
    | ok items => rw [hpi] at h; simp at h

/-- For an entity category, with a valid session, a 2xx response and a
populated cache, `query` is exactly its sectors/inputs/outputs branch —
the `require_session` decorator has nothing to translate because that
branch never raises an `HTTPError` under these hypotheses. -/
theorem query_entities_dispatch (qry : Query) (resp : EntitiesResponse)
    (descResp : DescResponse) (aresp : AlertsResponse) (s : ClientState)
    (tok : String) (d : Descriptions)
    (hq : qry = Query.sectors ∨ qry = Query.inputs ∨ qry = Query.outputs)
    (hsess : s.session_id = some tok) (hcache : s.descriptions = some d)
    (hok : is2xx resp.status = true) :
    query qry resp descResp aresp s = queryEntities_raw qry resp descResp s := by
  have hforms := queryEntities_err_forms qry resp descResp s d hcache hok
  have hmain : ∀ e, (queryEntities_raw qry resp descResp s).result = .error e →
      require_session (fun st =>
        match qry with
        | .panel => queryPanel_raw st
        | .alerts => queryAlerts_raw aresp st
        | _ => queryEntities_raw qry resp descResp st) s =
      queryEntities_raw qry resp descResp s := by
    intro e he
    rcases hforms e he with h1 | h1 <;> subst h1 <;>
      rcases hq with h | h | h <;> subst h <;>
      simp [query, require_session, hsess, he]
  cases hr : (queryEntities_raw qry resp descResp s).result with
  | error e => exact hmain e hr
  | ok r =>
    rcases hq with h | h | h <;> subst h <;>
      simp [query, require_session, hsess, hr]

/-- **C5 (amended).** For a sectors/inputs/outputs query (valid session,
2xx response, populated description cache): when every fetched id is
numeric, `last_id` is the maximum id — an element of the id list bounding
all of them, hence independent of the entries' ordering; when the fetched
list is empty the query succeeds with `last_id = 0`; and when the `max`
computation raises `TypeError` (incomparable id types, e.g. numeric mixed
with string), `last_id` defaults to 0.  (Uniformly comparable non-numeric
ids — e.g. all strings — instead yield Python's max of them, see the
counterexample.) -/
theorem query_last_id_spec (qry : Query) (resp : EntitiesResponse)
    (descResp : DescResponse) (aresp : AlertsResponse) (s : ClientState)
    (tok : String) (d : Descriptions)
    (hq : qry = Query.sectors ∨ qry = Query.inputs ∨ qry = Query.outputs)
    (hsess : s.session_id = some tok) (hcache : s.descriptions = some d)
    (hok : is2xx resp.status = true) :
    (∀ (n0 : Int) (ns : List Int),
      resp.entries.map Entry.id = (n0 :: ns).map (fun n => some (JVal.jnum n)) →
      ∀ r, (query qry resp descResp aresp s).result = .ok r →
        ∃ M : Int, r.last_id = .jnum M ∧ M ∈ n0 :: ns ∧ ∀ n ∈ n0 :: ns, n ≤ M) ∧
    (resp.entries = [] →
      (query qry resp descResp aresp s).result = .ok ⟨.jnum 0, .entities []⟩) ∧
    (pyMaxIds (resp.entries.map Entry.id) = .error .typeErr →
      ∀ r, (query qry resp descResp aresp s).result = .ok r → r.last_id = .jnum 0) := by
  have hdisp := query_entities_dispatch qry resp descResp aresp s tok d hq hsess hcache hok
  have hsc : queryStatusCheck resp.status resp.text = .ok () := by
    simp [queryStatusCheck, hok]
  have hdesc : get_descriptions descResp s = ⟨.ok d, s, []⟩ := by
    simp [get_descriptions, hcache]
  refine ⟨?_, ?_, ?_⟩
  · intro n0 ns hids r hr
    rw [hdisp] at hr
    have hcl := queryEntities_last_id qry resp descResp s d hcache hok r hr
    obtain ⟨M, hM, hmem, hbound⟩ := computeLastId_nums resp.entries n0 ns hids
    rw [hcl] at hM
    injection hM with h2
    exact ⟨M, h2, hmem, hbound⟩
  · intro hempty
    rw [hdisp, queryEntities_raw, hsc, hdesc]
    simp only [hempty]
    rfl
  · intro htype r hr
    rw [hdisp] at hr
    have hcl := queryEntities_last_id qry resp descResp s d hcache hok r hr
    rw [computeLastId, htype] at hcl
    simp only at hcl
    injection hcl with h2
    exact h2.symm

/-- Witness for C5: the spec's example sector list (ids 3 and 5, in use)
yields `last_id` bounded characterization at `M = 5`. -/
theorem query_last_id_spec_witness :
    ∃ M : Int,
      (query .sectors
        ⟨200, "",
          [{ id := some (.jnum 3), index := some 0, inUse := some true,
             active := some true },
           { id := some (.jnum 5), index := some 1, inUse := some true,
             active := some false }]⟩
        ⟨200, []⟩ ⟨200, "", none, none, none⟩
        ⟨"https://example.com", none, some "t", none, false, some []⟩).result =
          .ok ⟨.jnum M, .entities
            [(some 0, { id := some (.jnum 3), index := some 0, element := none,
                        name := "Unknown", activable := some false,
                        status := some true }),
             (some 1, { id := some (.jnum 5), index := some 1, element := none,
                        name := "Unknown", activable := some false,
                        status := some false })]⟩ ∧
      M ∈ [(3 : Int), 5] ∧ ∀ n ∈ [(3 : Int), 5], n ≤ M := by
  obtain ⟨M, hM, hmem, hbound⟩ :=
    (query_last_id_spec .sectors
      ⟨200, "",
        [{ id := some (.jnum 3), index := some 0, inUse := some true,
           active := some true },
         { id := some (.jnum 5), index := some 1, inUse := some true,
           active := some false }]⟩
      ⟨200, []⟩ ⟨200, "", none, none, none⟩
      ⟨"https://example.com", none, some "t", none, false, some []⟩ "t" []
      (Or.inl rfl) rfl rfl rfl).1 3 [5] rfl
      ⟨.jnum 5, .entities
        [(some 0, { id := some (.jnum 3), index := some 0, element := none,
                    name := "Unknown", activable := some false,
                    status := some true }),
         (some 1, { id := some (.jnum 5), index := some 1, element := none,
                    name := "Unknown", activable := some false,
                    status := some false })]⟩ rfl
  have h5 : JVal.jnum 5 = JVal.jnum M := hM
  injection h5 with h2
  subst h2
  exact ⟨5, rfl, hmem, hbound⟩

/-- Counterexample for C5 as stated: a single entry with the non-numeric
id `"a"` — the query succeeds and `last_id` is the string `"a"`, not 0. -/
theorem query_last_id_string_counterexample :
    (query .inputs ⟨200, "", [{ id := some (.jstr "a"), inUse := some false }]⟩
        ⟨200, []⟩ ⟨200, "", none, none, none⟩
        ⟨"https://example.com", none, some "t", none, false, some []⟩).result =
      .ok ⟨.jstr "a", .entities []⟩ ∧
    JVal.jstr "a" ≠ .jnum 0 :=
  ⟨rfl, by decide⟩

/-- The running `max` raises `KeyError` only when some id is missing. -/
theorem pyMaxRun_no_keyErr (ids : List (Option JVal)) :
    ∀ c, (∀ x ∈ ids, x.isSome = true) → pyMaxRun c ids ≠ .error .keyErr := by
  induction ids with
  | nil =>
    intro c h hcontra
    simp [pyMaxRun] at hcontra
  | cons x xs ih =>
    intro c h hcontra
    cases x with
    | none =>
      have := h none (List.mem_cons_self none xs)
      simp at this
    | some v =>
      rw [pyMaxRun] at hcontra
      cases hc : pyCompare v c with
      | none => rw [hc] at hcontra; simp at hcontra
      | some o =>
        rw [hc] at hcontra
        exact ih _ (fun x hx => h x (List.mem_cons_of_mem _ hx)) hcontra

/-- When every entry carries an `"Id"`, the `last_id` computation cannot
raise (it returns the max, or defaults to 0). -/
theorem computeLastId_ok_of_ids_some (entries : List Entry)
    (h : ∀ e ∈ entries, (Entry.id e).isSome = true) :
    ∃ v, computeLastId entries = .ok v := by
  unfold computeLastId
  cases hp : pyMaxIds (entries.map Entry.id) with
  | ok v => exact ⟨v, rfl⟩
  | error me =>
    cases me with
    | typeErr => exact ⟨.jnum 0, rfl⟩
    | valueErr => exact ⟨.jnum 0, rfl⟩
    | keyErr =>
      exfalso
      cases hl : entries.map Entry.id with
      | nil => rw [hl] at hp; simp [pyMaxIds] at hp
      | cons x xs =>
        have hx : ∀ y ∈ x :: xs, Option.isSome y = true := by
          rw [← hl]
          intro y hy
          obtain ⟨e, he, rfl⟩ := List.mem_map.mp hy
          exact h e he
        cases x with
        | none => have := hx none (List.mem_cons_self none xs); simp at this
        | some v =>
          rw [hl] at hp
          rw [pyMaxIds] at hp
          exact pyMaxRun_no_keyErr xs v
            (fun y hy => hx y (List.mem_cons_of_mem _ hy)) hp

/-- An entry whose `"InUse"` key is missing makes the record-building
loop fail (with some `KeyError`). -/
theorem buildItems_inUse_missing (qry : Query) (d : Descriptions) :
    ∀ (entries : List Entry) (acc : List (Option Int × Item)),
      (∃ e ∈ entries, e.inUse = none) →
      ∃ er, buildItems qry d acc entries = .error er := by
  intro entries
  induction entries with
  | nil =>
    intro acc h
    obtain ⟨e, he, _⟩ := h
    exact absurd he (by simp)
  | cons e0 rest ih =>
    intro acc h
    cases hu : e0.inUse with
    | none => exact ⟨.keyError "InUse", by rw [buildItems, hu]⟩
    | some b =>
      obtain ⟨e, he, hnone⟩ := h
      have hrest : e ∈ rest := by
        rcases List.mem_cons.mp he with h0 | h0
        · subst h0; rw [hu] at hnone; exact absurd hnone (by simp)
        · exact h0
      cases b with
      | false =>
        obtain ⟨er, her⟩ := ih acc ⟨e, hrest, hnone⟩
        exact ⟨er, by rw [buildItems, hu]; exact her⟩
      | true =>
        cases hb : buildItem qry d e0 with
        | error er => exact ⟨er, by rw [buildItems, hu, hb]⟩
        | ok item =>
          obtain ⟨er, her⟩ := ih (setA e0.index item acc) ⟨e, hrest, hnone⟩
          exact ⟨er, by rw [buildItems, hu, hb]; exact her⟩

/-- An entry that carries an `"Index"` always yields a record. -/
theorem buildItem_ok_of_index (qry : Query) (d : Descriptions) (e : Entry) (idx : Int)
    (hi : e.index = some idx) : ∃ it, buildItem qry d e = .ok it := by
  cases hb : buildItem qry d e with
  | ok it => exact ⟨it, rfl⟩
  | error er =>
    rw [buildItem, hi] at hb
    simp at hb

/-- An in-use entry whose `"Index"` key is missing makes the
record-building loop fail (with some `KeyError`), provided every entry
carries an `"InUse"` flag (so the loop is not aborted earlier for a
different reason). -/
theorem buildItems_index_missing (qry : Query) (d : Descriptions) :
    ∀ (entries : List Entry) (acc : List (Option Int × Item)),
      (∀ e ∈ entries, (Entry.inUse e).isSome = true) →
      (∃ e ∈ entries, e.inUse = some true ∧ e.index = none) →
      ∃ er, buildItems qry d acc entries = .error er := by
  intro entries
  induction entries with
  | nil =>
    intro acc hall h
    obtain ⟨e, he, _⟩ := h
    exact absurd he (by simp)
  | cons e0 rest ih =>
    intro acc hall h
    have hu0 := hall e0 (List.mem_cons_self e0 rest)
    cases hu : e0.inUse with
    | none => rw [hu] at hu0; exact absurd hu0 (by simp)
    | some b =>
      obtain ⟨e, he, heu, hei⟩ := h
      cases b with
      | false =>
        have hrest : e ∈ rest := by
          rcases List.mem_cons.mp he with h0 | h0
          · subst h0; rw [hu] at heu; exact absurd heu (by simp)
          · exact h0
        obtain ⟨er, her⟩ := ih acc
          (fun x hx => hall x (List.mem_cons_of_mem _ hx)) ⟨e, hrest, heu, hei⟩
        exact ⟨er, by rw [buildItems, hu]; exact her⟩
      | true =>
        cases hi : e0.index with
        | none =>
          refine ⟨.keyError "Index", ?_⟩
          rw [buildItems, hu, show buildItem qry d e0 = .error (.keyError "Index") by
            rw [buildItem, hi]]
        | some idx =>
          have hrest : e ∈ rest := by
            rcases List.mem_cons.mp he with h0 | h0
            · subst h0; rw [hi] at hei; exact absurd hei (by simp)
            · exact h0
          obtain ⟨it, hit⟩ := buildItem_ok_of_index qry d e0 idx hi
          obtain ⟨er, her⟩ := ih (setA e0.index it acc)
            (fun x hx => hall x (List.mem_cons_of_mem _ hx)) ⟨e, hrest, heu, hei⟩
          exact ⟨er, by rw [buildItems, hu, hit]; exact her⟩

/-- The record built for an entry whose index has no description resolves
its name to the literal `"Unknown"`. -/
theorem buildItem_unknown (qry : Query) (d : Descriptions) (e : Entry) (idx : Int)
    (hidx : e.index = some idx)
    (hlook : List.lookup idx ((List.lookup (queryClass qry) d).getD []) = none) :
    ∀ it, buildItem qry d e = .ok it → it.name = "Unknown" := by
  intro it hit
  rw [buildItem] at hit
  simp only [hidx, hlook] at hit
  cases qry <;> (injection hit with h2; subst h2; rfl)

/-- **C7 (amended).** For a sectors/inputs/outputs query (valid session,
2xx, populated cache): the only generic key-lookup failure that can
escape is the `KeyError` for an entry missing `"Id"` in the `last_id`
computation (see the counterexample); when every entry carries an `"Id"`,
an entry missing the expected `"InUse"` key makes the query raise
`ParseError`, never a generic key-lookup failure; likewise an in-use
entry missing the expected `"Index"` key makes the query raise
`ParseError`; and the record built for an in-use entry whose index is
absent from the description cache carries the literal name `"Unknown"`
instead of raising. -/
theorem query_parse_and_unknown (qry : Query) (resp : EntitiesResponse)
    (descResp : DescResponse) (aresp : AlertsResponse) (s : ClientState)
    (tok : String) (d : Descriptions)
    (hq : qry = Query.sectors ∨ qry = Query.inputs ∨ qry = Query.outputs)
    (hsess : s.session_id = some tok) (hcache : s.descriptions = some d)
    (hok : is2xx resp.status = true) :
    (∀ k, (query qry resp descResp aresp s).result = .error (.keyError k) → k = "Id") ∧
    ((∀ e ∈ resp.entries, (Entry.id e).isSome = true) →
      (∃ e ∈ resp.entries, e.inUse = none) →
      (query qry resp descResp aresp s).result = .error .parseError) ∧
    ((∀ e ∈ resp.entries, (Entry.id e).isSome = true) →
      (∀ e ∈ resp.entries, (Entry.inUse e).isSome = true) →
      (∃ e ∈ resp.entries, e.inUse = some true ∧ e.index = none) →
      (query qry resp descResp aresp s).result = .error .parseError) ∧
    (∀ (e : Entry) (idx : Int), e.index = some idx →
      List.lookup idx ((List.lookup (queryClass qry) d).getD []) = none →
      ∀ it, buildItem qry d e = .ok it → it.name = "Unknown") := by
  have hdisp := query_entities_dispatch qry resp descResp aresp s tok d hq hsess hcache hok
  have hsc : queryStatusCheck resp.status resp.text = .ok () := by
    simp [queryStatusCheck, hok]
  have hdesc : get_descriptions descResp s = ⟨.ok d, s, []⟩ := by
    simp [get_descriptions, hcache]
  refine ⟨?_, ?_, ?_, ?_⟩
  · intro k h
    rw [hdisp] at h
    rcases queryEntities_err_forms qry resp descResp s d hcache hok _ h with h1 | h1
    · injection h1
    · exact absurd h1 (by simp)
  · intro hids hmiss
    obtain ⟨v, hv⟩ := computeLastId_ok_of_ids_some resp.entries hids
    obtain ⟨er, her⟩ := buildItems_inUse_missing qry d resp.entries [] hmiss
    obtain ⟨k, hk⟩ := buildItems_err qry d resp.entries [] er her
    subst hk
    have hpe : parseItems qry d resp.entries = .error .parseError := by
      rw [parseItems, her]
    rw [hdisp, queryEntities_raw, hsc, hdesc]
    simp only [hv, hpe]
  · intro hids hinuse hmiss
    obtain ⟨v, hv⟩ := computeLastId_ok_of_ids_some resp.entries hids
    obtain ⟨er, her⟩ := buildItems_index_missing qry d resp.entries [] hinuse hmiss
    obtain ⟨k, hk⟩ := buildItems_err qry d resp.entries [] er her
    subst hk
    have hpe : parseItems qry d resp.entries = .error .parseError := by
      rw [parseItems, her]
    rw [hdisp, queryEntities_raw, hsc, hdesc]
    simp only [hv, hpe]
  · exact fun e idx hidx hlook => buildItem_unknown qry d e idx hidx hlook

/-- Witness for the amended C7: an entry with an `"Id"` but no `"InUse"`
key makes the query raise `ParseError`; an in-use entry with an `"Id"`
but no `"Index"` key also makes it raise `ParseError`; and the record
built for an in-use entry whose index 7 has no description resolves to
the literal name `"Unknown"`. -/
theorem query_parse_and_unknown_witness :
    (query .sectors ⟨200, "", [{ id := some (.jnum 1) }]⟩ ⟨200, []⟩
        ⟨200, "", none, none, none⟩
        ⟨"https://example.com", none, some "t", none, false, some []⟩).result =
      .error .parseError ∧
    (query .sectors ⟨200, "", [{ id := some (.jnum 1), inUse := some true }]⟩ ⟨200, []⟩
        ⟨200, "", none, none, none⟩
        ⟨"https://example.com", none, some "t", none, false, some []⟩).result =
      .error .parseError ∧
    buildItem .sectors [] { index := some 7, inUse := some true } =
      .ok ⟨none, some 7, none, "Unknown", some false, none, none, none, some false⟩ ∧
    (Item.mk none (some 7) none "Unknown" (some false) none none none
      (some false)).name = "Unknown" := by
  refine ⟨?_, ?_, rfl, ?_⟩
  · exact (query_parse_and_unknown .sectors ⟨200, "", [{ id := some (.jnum 1) }]⟩
      ⟨200, []⟩ ⟨200, "", none, none, none⟩
      ⟨"https://example.com", none, some "t", none, false, some []⟩ "t" []
      (Or.inl rfl) rfl rfl rfl).2.1
      (by intro e he; simp at he; subst he; rfl)
      ⟨{ id := some (.jnum 1) }, by simp, rfl⟩
  · exact (query_parse_and_unknown .sectors
      ⟨200, "", [{ id := some (.jnum 1), inUse := some true }]⟩
      ⟨200, []⟩ ⟨200, "", none, none, none⟩
      ⟨"https://example.com", none, some "t", none, false, some []⟩ "t" []
      (Or.inl rfl) rfl rfl rfl).2.2.1
      (by intro e he; simp at he; subst he; rfl)
      (by intro e he; simp at he; subst he; rfl)
      ⟨{ id := some (.jnum 1), inUse := some true }, by simp, rfl, rfl⟩
  · exact (query_parse_and_unknown .sectors ⟨200, "", [{ id := some (.jnum 1) }]⟩
      ⟨200, []⟩ ⟨200, "", none, none, none⟩
      ⟨"https://example.com", none, some "t", none, false, some []⟩ "t" []
      (Or.inl rfl) rfl rfl rfl).2.2.2
      { index := some 7, inUse := some true } 7 rfl rfl
      ⟨none, some 7, none, "Unknown", some false, none, none, none, some false⟩ rfl

/-- Counterexample for C7 as stated: an entry with no `"Id"` key makes
the query raise the generic `KeyError`, not `ParseError`. -/
theorem query_missing_id_counterexample :
    (query .sectors ⟨200, "", [{ inUse := some false }]⟩ ⟨200, []⟩
        ⟨200, "", none, none, none⟩
        ⟨"https://example.com", none, some "t", none, false, some []⟩).result =
      .error (.keyError "Id") ∧
    (Except.error (ApiError.keyError "Id") : Except ApiError QueryOut) ≠
      .error .parseError :=
  ⟨rfl, by decide⟩

/-- Appending a fresh cell does not change what existing references see. -/
theorem get?_append_fst {α : Type} (l l2 : List α) :
    ∀ r, r < l.length → (l ++ l2).get? r = l.get? r := by
  induction l with
  | nil => intro r h; exact absurd h (by simp)
  | cons a as ih =>
    intro r h
    cases r with
    | zero => rfl
    | succ r2 => exact ih r2 (by simpa using Nat.lt_of_succ_lt_succ h)

/-- Mutating one cell leaves every other reference untouched. -/
theorem get?_set_other {α : Type} (v : α) :
    ∀ (l : List α) (i j : Nat), i ≠ j → (l.set i v).get? j = l.get? j := by
  intro l
  induction l with
  | nil => intro i j h; rfl
  | cons a as ih =>
    intro i j h
    cases i with
    | zero =>
      cases j with
      | zero => exact absurd rfl h
      | succ j2 => rfl
    | succ i2 =>
      cases j with
      | zero => rfl
      | succ j2 => exact ih i2 j2 (fun hc => h (by rw [hc]))

/-- **C10.** With a valid session, `query(q.PANEL)` performs no network
request, returns `last_id = 0` together with the panel metadata captured
at login (the empty mapping when none was captured), and leaves the whole
client state unchanged; in the object-identity model the returned
dictionary is a freshly allocated deep copy, so mutating it never changes
the dictionary the client still references. -/
theorem query_panel_spec (s : ClientState) (tok : String)
    (resp : EntitiesResponse) (descResp : DescResponse) (aresp : AlertsResponse)
    (hsess : s.session_id = some tok) :
    query .panel resp descResp aresp s =
      ⟨.ok ⟨.jnum 0, .panelData (s.panel.getD [])⟩, s, []⟩ ∧
    (∀ (h : PanelHeap) (r : Nat) (v : Dict), r < h.cells.length →
      (queryPanelHeap h (some r)).2.2 = .jnum 0 ∧
      (queryPanelHeap h (some r)).2.1 ≠ r ∧
      heapGet (queryPanelHeap h (some r)).1 r = heapGet h r ∧
      heapGet (heapSet (queryPanelHeap h (some r)).1 (queryPanelHeap h (some r)).2.1 v) r =
        heapGet h r) := by
  constructor
  · cases hp : s.panel with
    | none => simp [query, require_session, queryPanel_raw, hsess, hp]
    | some p =>
      by_cases hpe : p = []
      · subst hpe
        simp [query, require_session, queryPanel_raw, hsess, hp]
      · simp [query, require_session, queryPanel_raw, hsess, hp, hpe]
  · intro h r v hr
    have hne : h.cells.length ≠ r := (Nat.ne_of_lt hr).symm
    refine ⟨rfl, hne, ?_, ?_⟩
    · exact get?_append_fst h.cells _ r hr
    · show ((h.cells ++ _).set h.cells.length v).get? r = h.cells.get? r
      rw [get?_set_other v _ _ _ hne]
      exact get?_append_fst h.cells _ r hr

/-- Witness for C10: a client holding panel metadata, and a concrete heap
whose stored panel dictionary survives a mutation of the returned copy. -/
theorem query_panel_spec_witness :
    (query .panel ⟨200, "", []⟩ ⟨200, []⟩ ⟨200, "", none, none, none⟩
        ⟨"https://example.com", none, some "t", some [("brand", .jstr "x")], false,
         none⟩) =
      ⟨.ok ⟨.jnum 0, .panelData [("brand", .jstr "x")]⟩,
       ⟨"https://example.com", none, some "t", some [("brand", .jstr "x")], false,
        none⟩, []⟩ ∧
    heapGet (heapSet (queryPanelHeap ⟨[[("k", .jnum 1)]]⟩ (some 0)).1
        (queryPanelHeap ⟨[[("k", .jnum 1)]]⟩ (some 0)).2.1 []) 0 =
      heapGet ⟨[[("k", .jnum 1)]]⟩ 0 :=
  ⟨(query_panel_spec
      ⟨"https://example.com", none, some "t", some [("brand", .jstr "x")], false, none⟩
      "t" ⟨200, "", []⟩ ⟨200, []⟩ ⟨200, "", none, none, none⟩ rfl).1,
   ((query_panel_spec
      ⟨"https://example.com", none, some "t", some [("brand", .jstr "x")], false, none⟩
      "t" ⟨200, "", []⟩ ⟨200, []⟩ ⟨200, "", none, none, none⟩ rfl).2
      ⟨[[("k", .jnum 1)]]⟩ 0 [] (by decide)).2.2.2⟩

end Elmo
